import Mathlib

/-!
Verification of the MadPaster input-injection subsystem (src/madpaster.cpp).

The embedding models the injection pipeline `sendTextToWindowEx` and its
helpers (`inject::FlushInputs`, `inject::FlushInputsWithPacing`,
`inject::MapCharacterToVK`, `inject::AppendVKCharacterInputs`,
`inject::AppendCharacterInputs`, `inject::AppendCharacterWithMode`,
`inject::ResetModifiers`, `inject::SendEnterKey`,
`inject::GetDefaultPacingConfig`) as pure functions.

OS interaction is made explicit:
* `SendInput` is modelled by an environment function `Env.sendAccept`
  mapping the index of the call and the number of events requested to the
  number of events the OS accepts (clamped to the request, as the real
  `SendInput` never accepts more than submitted).
* the process-wide abort flag set by the low-level keyboard hook is
  modelled by `Env.abortFlag`, giving the value read by the n-th
  `IsAbortRequested()` poll.
* the keyboard layout (`VkKeyScanExW` / `MapVirtualKeyW`) is a parameter
  `Layout`.

The run produces, besides the returned character count, the ordered list of
externally visible actions (hook install/remove and every `SendInput` call
with the events submitted and the count accepted) and a terminal state
mirroring the three return paths of the C++ function (fall-through return =
Completed, ESC return = Aborted, burst-flush-failure return = Failed).
Sleeps, the timer-resolution guard and the optional diagnostic recorder are
not modelled: they do not affect the returned count, the terminal state or
the submitted events.  Text is the sequence of UTF-16 code units as naturals.
-/

namespace MadPaster

/-- `CHUNK_SIZE` (madpaster.cpp line 49): characters per SendInput batch. -/
def CHUNK_SIZE : Nat := 2

/-- `MAX_RETRY_COUNT` (line 52): retries on rejected SendInput. -/
def MAX_RETRY_COUNT : Nat := 3

/-- `PER_EVENT_DELAY_MS` (line 56). -/
def PER_EVENT_DELAY_MS : Nat := 2

/-- `PER_CHAR_DELAY_MS` (line 57). -/
def PER_CHAR_DELAY_MS : Nat := 5

/-- `LINE_START_GUARD_CHARS` (line 58). -/
def LINE_START_GUARD_CHARS : Nat := 3

/-- `LINE_START_GUARD_MS` (line 59). -/
def LINE_START_GUARD_MS : Nat := 10

/-- `KEYEVENTF_KEYUP` flag bit. -/
def KEYEVENTF_KEYUP : Nat := 2

/-- `KEYEVENTF_UNICODE` flag bit. -/
def KEYEVENTF_UNICODE : Nat := 4

/-- `KEYEVENTF_SCANCODE` flag bit. -/
def KEYEVENTF_SCANCODE : Nat := 8

/-- Virtual-key code `VK_SHIFT`. -/
def VK_SHIFT : Nat := 0x10

/-- Virtual-key code `VK_LSHIFT`. -/
def VK_LSHIFT : Nat := 0xA0

/-- Virtual-key code `VK_RSHIFT`. -/
def VK_RSHIFT : Nat := 0xA1

/-- Virtual-key code `VK_LCONTROL`. -/
def VK_LCONTROL : Nat := 0xA2

/-- Virtual-key code `VK_RCONTROL`. -/
def VK_RCONTROL : Nat := 0xA3

/-- Virtual-key code `VK_LMENU` (left Alt). -/
def VK_LMENU : Nat := 0xA4

/-- Virtual-key code `VK_RMENU` (right Alt). -/
def VK_RMENU : Nat := 0xA5

/-- Hardware scancode of the Enter key (line 763). -/
def ENTER_SCANCODE : Nat := 0x1C

/-- `enum class InjectionMode` (lines 34-39). -/
inductive InjectionMode where
  | Unicode
  | VKScancode
  | Hybrid
  | Auto
deriving DecidableEq

/-- `enum class PacingStrategy` (lines 42-46). -/
inductive PacingStrategy where
  | Burst
  | PerCharacter
  | PerEvent
deriving DecidableEq

/-- One `INPUT` keyboard record: virtual key, scancode, flag bits. -/
structure KeyEvent where
  wVk : Nat
  wScan : Nat
  dwFlags : Nat
deriving DecidableEq

/-- The target keyboard layout, as consulted by the encoder:
`vkKeyScan ch` models `VkKeyScanExW(ch, layout)` (`none` = the -1 failure
result, otherwise the (low-byte VK, high-byte modifier) pair) and
`mapVKToVSC` models `MapVirtualKeyW(vk, MAPVK_VK_TO_VSC)`. -/
structure Layout where
  vkKeyScan : Nat → Option (Nat × Nat)
  mapVKToVSC : Nat → Nat

/-- `struct VKMapping` (lines 514-519). -/
structure VKMapping where
  success : Bool
  vk : Nat
  scancode : Nat
  needsShift : Bool
deriving DecidableEq

/-- `inject::MapCharacterToVK` (lines 524-550): accepts only mappings with
modifier byte 0 (none) or 1 (Shift); anything larger (Ctrl=2, Alt=4 or
combinations) is rejected, as is an unmappable character. -/
def MapCharacterToVK (ch : Nat) (layout : Layout) : VKMapping :=
  match layout.vkKeyScan ch with
  | none => { success := false, vk := 0, scancode := 0, needsShift := false }
  | some (vk, modifiers) =>
    if modifiers > 1 then
      { success := false, vk := 0, scancode := 0, needsShift := false }
    else
      { success := true, vk := vk, scancode := layout.mapVKToVSC vk,
        needsShift := modifiers == 1 }

/-- `inject::AppendCharacterInputs` (lines 740-752): one Unicode key-down
plus one key-up carrying the raw code unit. -/
def AppendCharacterInputs (c : Nat) : List KeyEvent :=
  [ { wVk := 0, wScan := c, dwFlags := KEYEVENTF_UNICODE },
    { wVk := 0, wScan := c, dwFlags := KEYEVENTF_UNICODE ||| KEYEVENTF_KEYUP } ]

/-- `inject::AppendVKCharacterInputs` (lines 554-603): returns the events
appended to the buffer ([] models the `return 0` rejection path). -/
def AppendVKCharacterInputs (ch : Nat) (layout : Layout) : List KeyEvent :=
  let mapping := MapCharacterToVK ch layout
  if mapping.success = false then
    []
  else
    (if mapping.needsShift then
      [ { wVk := VK_SHIFT, wScan := layout.mapVKToVSC VK_SHIFT,
          dwFlags := KEYEVENTF_SCANCODE } ]
     else []) ++
    [ { wVk := mapping.vk, wScan := mapping.scancode, dwFlags := KEYEVENTF_SCANCODE },
      { wVk := mapping.vk, wScan := mapping.scancode,
        dwFlags := KEYEVENTF_SCANCODE ||| KEYEVENTF_KEYUP } ] ++
    (if mapping.needsShift then
      [ { wVk := VK_SHIFT, wScan := layout.mapVKToVSC VK_SHIFT,
          dwFlags := KEYEVENTF_SCANCODE ||| KEYEVENTF_KEYUP } ]
     else [])

/-- `inject::AppendCharacterWithMode` (lines 607-639): the events the call
appends for one character (the C++ function always returns true). -/
def AppendCharacterWithMode (ch : Nat) (mode : InjectionMode) (layout : Layout) :
    List KeyEvent :=
  match mode with
  | .Unicode => AppendCharacterInputs ch
  | .VKScancode =>
    let added := AppendVKCharacterInputs ch layout
    if added = [] then AppendCharacterInputs ch else added
  | .Hybrid =>
    let added := AppendVKCharacterInputs ch layout
    if added = [] then AppendCharacterInputs ch else added
  | .Auto => AppendCharacterInputs ch

/-- `inject::ResetModifiers` (lines 480-508): the six key-up events for
left/right Shift, Control and Alt submitted in one SendInput call. -/
def resetModifierEvents : List KeyEvent :=
  [ { wVk := VK_LSHIFT, wScan := 0, dwFlags := KEYEVENTF_KEYUP },
    { wVk := VK_RSHIFT, wScan := 0, dwFlags := KEYEVENTF_KEYUP },
    { wVk := VK_LCONTROL, wScan := 0, dwFlags := KEYEVENTF_KEYUP },
    { wVk := VK_RCONTROL, wScan := 0, dwFlags := KEYEVENTF_KEYUP },
    { wVk := VK_LMENU, wScan := 0, dwFlags := KEYEVENTF_KEYUP },
    { wVk := VK_RMENU, wScan := 0, dwFlags := KEYEVENTF_KEYUP } ]

/-- `inject::SendEnterKey` (lines 757-774): hardware-scancode Enter
key-down / key-up pair. -/
def enterKeyEvents : List KeyEvent :=
  [ { wVk := 0, wScan := ENTER_SCANCODE, dwFlags := KEYEVENTF_SCANCODE },
    { wVk := 0, wScan := ENTER_SCANCODE,
      dwFlags := KEYEVENTF_SCANCODE ||| KEYEVENTF_KEYUP } ]

/-- `struct PacingConfig` (lines 678-685). -/
structure PacingConfig where
  strategy : PacingStrategy
  perEventDelayMs : Nat
  perCharDelayMs : Nat
  lineStartGuardChars : Nat
  lineStartGuardMs : Nat
  baseKeystrokeDelayMs : Nat
deriving DecidableEq

/-- `inject::GetDefaultPacingConfig` (lines 688-703); `keystrokeDelayMs` is
the `g_app.keystrokeDelayMs` UI setting. -/
def GetDefaultPacingConfig (isRemote : Bool) (keystrokeDelayMs : Nat) : PacingConfig :=
  { strategy := if isRemote then .PerCharacter else .Burst,
    perEventDelayMs := PER_EVENT_DELAY_MS,
    perCharDelayMs := PER_CHAR_DELAY_MS,
    lineStartGuardChars := LINE_START_GUARD_CHARS,
    lineStartGuardMs := LINE_START_GUARD_MS,
    baseKeystrokeDelayMs := keystrokeDelayMs }

/-- An externally visible action of a run: installing/removing the abort
hook, or one `SendInput` call with the submitted events and the count the
OS accepted. -/
inductive Action where
  | hookInstall
  | hookRemove
  | send (events : List KeyEvent) (accepted : Nat)
deriving DecidableEq

/-- The OS environment of one run: `sendAccept n r` is the number of events
the OS accepts on the n-th SendInput call requesting `r` events (the model
clamps it to `r`); `abortFlag n` is the abort-flag value read by the n-th
`IsAbortRequested()` poll. -/
structure Env where
  sendAccept : Nat → Nat → Nat
  abortFlag : Nat → Bool

/-- The three terminal states of a run, mirroring the three return paths of
`sendTextToWindowEx`. -/
inductive RunState where
  | Completed
  | Aborted
  | Failed
deriving DecidableEq

/-- Inner retry loop of `inject::FlushInputs` (lines 651-668) at one buffer
offset: up to `tries` SendInput calls on the whole remaining slice until one
is accepted (`sent > 0`); returns the accepted count (`none` when all
`tries` attempts were rejected), the next call index and the calls made. -/
def flushBurstTry (env : Env) (k : Nat) (remaining : List KeyEvent) :
    Nat → Option Nat × Nat × List Action
  | 0 => (none, k, [])
  | t + 1 =>
    let accepted := min (env.sendAccept k remaining.length) remaining.length
    if accepted > 0 then
      (some accepted, k + 1, [Action.send remaining accepted])
    else
      match flushBurstTry env (k + 1) remaining t with
      | (r, k', as) => (r, k', Action.send remaining 0 :: as)

/-- Outer loop of `inject::FlushInputs` (lines 644-672): after each
successful call the offset advances by the accepted count (the consecutive
failure counter resets, so each new offset gets `MAX_RETRY_COUNT` fresh
attempts); three consecutive rejections abort the flush.  `fuel` bounds the
recursion and is always instantiated with the buffer length, which the
strictly advancing offset never exceeds. -/
def flushBurstGo (env : Env) : Nat → Nat → List KeyEvent → Bool × Nat × List Action
  | _, k, [] => (true, k, [])
  | 0, k, _ :: _ => (false, k, [])
  | fuel + 1, k, e :: rest =>
    match flushBurstTry env k (e :: rest) MAX_RETRY_COUNT with
    | (none, k', as) => (false, k', as)
    | (some accepted, k', as) =>
      match flushBurstGo env fuel k' ((e :: rest).drop accepted) with
      | (ok, k'', as') => (ok, k'', as ++ as')

/-- `inject::FlushInputs` (lines 644-672): submits the whole buffer with
bounded retry; returns whether all events were sent, plus the next call
index and the SendInput calls made.  The buffer is cleared on every path. -/
def FlushInputs (env : Env) (k : Nat) (buffer : List KeyEvent) :
    Bool × Nat × List Action :=
  if buffer = [] then (true, k, [])
  else flushBurstGo env buffer.length k buffer

/-- Retry loop on one event inside `inject::FlushInputsWithPacing`
(lines 714-733): up to `tries` single-event SendInput calls until one is
accepted. -/
def pacedTryOne (env : Env) (k : Nat) (e : KeyEvent) :
    Nat → Bool × Nat × List Action
  | 0 => (false, k, [])
  | t + 1 =>
    let accepted := min (env.sendAccept k 1) 1
    if accepted > 0 then
      (true, k + 1, [Action.send [e] 1])
    else
      match pacedTryOne env (k + 1) e t with
      | (ok, k', as) => (ok, k', Action.send [e] 0 :: as)

/-- Event-by-event loop of `inject::FlushInputsWithPacing` (lines 707-737):
each event is retried in place (`i--`); the consecutive-failure counter
resets on every accepted event, so each event gets `MAX_RETRY_COUNT`
attempts, and the 3rd consecutive rejection breaks out of the whole flush.
Returns the number of events sent. -/
def pacedGo (env : Env) (k : Nat) : List KeyEvent → Nat × Nat × List Action
  | [] => (0, k, [])
  | e :: rest =>
    match pacedTryOne env k e MAX_RETRY_COUNT with
    | (false, k', as) => (0, k', as)
    | (true, k', as) =>
      match pacedGo env k' rest with
      | (sent, k'', as') => (sent + 1, k'', as ++ as')

/-- `inject::FlushInputsWithPacing` (lines 707-737): returns how many
events were sent (the buffer is cleared in all cases). -/
def FlushInputsWithPacing (env : Env) (k : Nat) (buffer : List KeyEvent) :
    Nat × Nat × List Action :=
  if buffer = [] then (0, k, [])
  else pacedGo env k buffer

/-- Mutable locals of the `sendTextToWindowEx` loop plus the threaded
SendInput call index, abort poll index, action log and the list of modes
the per-character encoder has been invoked with. -/
structure LoopState where
  buffer : List KeyEvent
  charsSent : Nat
  charsInBuffer : Nat
  charsSinceNewline : Nat
  sendCalls : Nat
  abortChecks : Nat
  actions : List Action
  modesUsed : List InjectionMode

/-- Result of a run: the returned count, the terminal state (return path
taken) and the logged actions / encoder modes. -/
structure RunResult where
  charsSent : Nat
  state : RunState
  actions : List Action
  modesUsed : List InjectionMode
deriving DecidableEq

/-- One `SendInput` call whose result the code ignores
(`inject::ResetModifiers`, `inject::SendEnterKey`). -/
def doSendCall (env : Env) (s : LoopState) (events : List KeyEvent) : LoopState :=
  { s with
    sendCalls := s.sendCalls + 1,
    actions := s.actions ++
      [Action.send events (min (env.sendAccept s.sendCalls events.length) events.length)] }

/-- The common exit sequence of every return path of `sendTextToWindowEx`:
`inject::ResetModifiers()` then `inject::RemoveAbortHook()` (lines
1035-1043, 1060-1068, 1109-1117, 1156-1165, 1175-1184). -/
def exitWith (env : Env) (s : LoopState) (st : RunState) : RunResult :=
  let s1 := doSendCall env s resetModifierEvents
  { charsSent := s1.charsSent, state := st,
    actions := s1.actions ++ [Action.hookRemove],
    modesUsed := s1.modesUsed }

/-- Strategy dispatch at a flush site (lines 1059-1073, 1108-1122,
1156-1170): Burst uses `FlushInputs`, whose failure is fatal; the paced
strategies use `FlushInputsWithPacing`, whose sent-count is only recorded
for diagnostics and never treated as failure. -/
def flushRaw (env : Env) (cfg : PacingConfig) (k : Nat) (buffer : List KeyEvent) :
    Bool × Nat × List Action :=
  match cfg.strategy with
  | .Burst => FlushInputs env k buffer
  | _ =>
    match FlushInputsWithPacing env k buffer with
    | (_, k', as) => (true, k', as)

/-- A flush site of the pipeline: flush the buffer, and on success perform
the `charsSent += charsInBuffer; charsInBuffer = 0` bookkeeping the code
does after the flush (lines 1074-1075, 1124-1125, 1171); on Burst failure
the pending characters are dropped and the run will return early. -/
def flushBoundary (env : Env) (cfg : PacingConfig) (s : LoopState) :
    Bool × LoopState :=
  match flushRaw env cfg s.sendCalls s.buffer with
  | (true, k', as) =>
    (true,
      { s with
        buffer := [], sendCalls := k', actions := s.actions ++ as,
        charsSent := s.charsSent + s.charsInBuffer, charsInBuffer := 0 })
  | (false, k', as) =>
    (false, { s with buffer := [], sendCalls := k', actions := s.actions ++ as })

/-- Lookahead used by the CRLF-collapse test
(`i + 1 < text.size() && text[i + 1] == L'\n'`, line 1049). -/
def nextIsLF : List Nat → Bool
  | [] => false
  | c :: _ => c == 10

/-- Recording that one `IsAbortRequested()` poll happened (the poll index
advances). -/
def bumpAbort (s : LoopState) : LoopState :=
  { s with abortChecks := s.abortChecks + 1 }

/-- Character accumulation (lines 1095-1099): append the encoded events,
count the pending character, advance the line-start counter, record the
mode the encoder was invoked with. -/
def appendCharState (s : LoopState) (c : Nat) (rmode : InjectionMode)
    (layout : Layout) : LoopState :=
  { s with
    buffer := s.buffer ++ AppendCharacterWithMode c rmode layout,
    charsInBuffer := s.charsInBuffer + 1,
    charsSinceNewline := s.charsSinceNewline + 1,
    modesUsed := s.modesUsed ++ [rmode] }

/-- Newline handling after the pending flush (lines 1080-1091):
`inject::SendEnterKey()` (result ignored), `charsSent++`, line-start
counter reset. -/
def enterState (env : Env) (s : LoopState) : LoopState :=
  let s2 := doSendCall env s enterKeyEvents
  { s2 with charsSent := s2.charsSent + 1, charsSinceNewline := 0 }

/-- The character walk of `sendTextToWindowEx` (lines 1033-1173): abort
poll at buffer-empty boundaries, CRLF collapse, newline handling via a
hardware Enter, character accumulation and chunk-boundary flushes, then the
trailing flush and the common exit sequence. -/
def sendGo (env : Env) (cfg : PacingConfig) (rmode : InjectionMode) (layout : Layout) :
    LoopState → List Nat → RunResult
  | s, [] =>
    if s.buffer.isEmpty then exitWith env s .Completed
    else
      match flushBoundary env cfg s with
      | (false, s1) => exitWith env s1 .Failed
      | (true, s1) => exitWith env s1 .Completed
  | s, c :: rest =>
    let s0 := if s.buffer.isEmpty then bumpAbort s else s
    if s.buffer.isEmpty && env.abortFlag s.abortChecks then
      exitWith env s0 .Aborted
    else if c == 13 && nextIsLF rest then
      sendGo env cfg rmode layout s0 rest
    else if c == 10 || c == 13 then
      match (if s0.buffer.isEmpty then (true, s0) else flushBoundary env cfg s0) with
      | (false, s1) => exitWith env s1 .Failed
      | (true, s1) => sendGo env cfg rmode layout (enterState env s1) rest
    else
      let s1 := appendCharState s0 c rmode layout
      if (if cfg.strategy == .Burst then CHUNK_SIZE else 1) ≤ s1.charsInBuffer then
        match flushBoundary env cfg s1 with
        | (false, s2) => exitWith env s2 .Failed
        | (true, s2) => sendGo env cfg rmode layout s2 rest
      else
        sendGo env cfg rmode layout s1 rest

/-- State at function entry, after `inject::InstallAbortHook()`
(line 1007). -/
def initState : LoopState :=
  { buffer := [], charsSent := 0, charsInBuffer := 0, charsSinceNewline := 0,
    sendCalls := 0, abortChecks := 0, actions := [Action.hookInstall], modesUsed := [] }

/-- Auto-mode resolution (lines 1018-1021). -/
def resolveAuto (mode : InjectionMode) : InjectionMode :=
  if mode == .Auto then .Hybrid else mode

/-- `sendTextToWindowEx` (lines 999-1185): install the abort hook, resolve
Auto to Hybrid, reset modifiers, run the character walk. -/
def sendTextToWindowEx (env : Env) (layout : Layout) (text : List Nat)
    (mode : InjectionMode) (cfg : PacingConfig) : RunResult :=
  sendGo env cfg (resolveAuto mode) layout
    (doSendCall env initState resetModifierEvents) text

/-- Texts containing no `"\r\n"` pair (positions the walk would skip, line
1049). -/
def noCRLF : List Nat → Bool
  | [] => true
  | c :: rest => (!(c == 13 && nextIsLF rest)) && noCRLF rest

/-- Texts containing at least one character the walk buffers (a character
that is neither a line break nor a skipped `\r`). -/
def hasPrintable : List Nat → Bool
  | [] => false
  | c :: rest => if c == 10 || c == 13 then hasPrintable rest else true

/-- The run's last two actions are the modifier-reset SendInput call and
the hook removal: all six modifier keys are reported up before return. -/
def modResetBeforeReturn (acts : List Action) : Bool :=
  match acts.reverse with
  | Action.hookRemove :: Action.send evs _ :: _ => evs == resetModifierEvents
  | _ => false

/-- Number of times event `e` is submitted across all SendInput calls of an
action log. -/
def countEventOcc (e : KeyEvent) (acts : List Action) : Nat :=
  acts.foldl (fun n a => match a with
    | Action.send evs _ => n + evs.count e
    | _ => n) 0

/-! ### Concrete fixtures used by witnesses and counterexamples -/

/-- OS that accepts every submitted event and never sets the abort flag. -/
def envAcceptAll : Env := ⟨fun _ n => n, fun _ => false⟩

/-- OS that rejects every SendInput call and never sets the abort flag. -/
def envRejectAll : Env := ⟨fun _ _ => 0, fun _ => false⟩

/-- OS that accepts every event; the abort flag is set before the run
starts (every poll reads true). -/
def envAbortAlways : Env := ⟨fun _ n => n, fun _ => true⟩

/-- OS that accepts every event; the abort flag becomes set just after the
run's first boundary poll (poll 0 reads false, every later poll reads
true). -/
def envAbortAfterFirst : Env := ⟨fun _ n => n, fun k => decide (1 ≤ k)⟩

/-- Keyboard layout with no VK mapping for any character
(`VkKeyScanExW` returns -1). -/
def layoutNone : Layout := ⟨fun _ => none, fun _ => 0⟩

/-- Layout mapping every character to VK 65 with no modifier. -/
def layoutPlain : Layout := ⟨fun _ => some (65, 0), fun _ => 30⟩

/-- Layout mapping every character to VK 65 with the Shift modifier. -/
def layoutShift : Layout := ⟨fun _ => some (65, 1), fun _ => 30⟩

/-- Layout mapping every character to VK 65 with the Ctrl modifier
(modifier byte 2). -/
def layoutCtrl : Layout := ⟨fun _ => some (65, 2), fun _ => 30⟩

/-- Default pacing for a local target, zero base keystroke delay. -/
def cfgBurst0 : PacingConfig := GetDefaultPacingConfig false 0

/-- Default pacing for a remote target, zero base keystroke delay. -/
def cfgPerChar0 : PacingConfig := GetDefaultPacingConfig true 0

/-! ### Character-encoder lemmas -/

theorem AppendCharacterInputs_length (c : Nat) :
    (AppendCharacterInputs c).length = 2 := rfl

theorem AppendVK_of_scan_none {ch : Nat} {layout : Layout}
    (h : layout.vkKeyScan ch = none) :
    AppendVKCharacterInputs ch layout = [] := by
  simp [AppendVKCharacterInputs, MapCharacterToVK, h]

theorem AppendVK_of_modifier_reject {ch : Nat} {layout : Layout} {vk mods : Nat}
    (h : layout.vkKeyScan ch = some (vk, mods)) (hm : 1 < mods) :
    AppendVKCharacterInputs ch layout = [] := by
  simp [AppendVKCharacterInputs, MapCharacterToVK, h, hm]

theorem MapCharacterToVK_success_false_append_nil {ch : Nat} {layout : Layout}
    (h : (MapCharacterToVK ch layout).success = false) :
    AppendVKCharacterInputs ch layout = [] := by
  simp [AppendVKCharacterInputs, h]

theorem AppendVK_length_accept {ch : Nat} {layout : Layout} {vk mods : Nat}
    (h : layout.vkKeyScan ch = some (vk, mods)) (hm : mods ≤ 1) :
    (AppendVKCharacterInputs ch layout).length = if mods = 1 then 4 else 2 := by
  have hm' : ¬ mods > 1 := by omega
  rcases Nat.lt_or_ge mods 1 with h0 | h1
  · have : mods = 0 := by omega
    subst this
    simp [AppendVKCharacterInputs, MapCharacterToVK, h]
  · have : mods = 1 := by omega
    subst this
    simp [AppendVKCharacterInputs, MapCharacterToVK, h]

theorem AppendVK_length_even (ch : Nat) (layout : Layout) :
    (AppendVKCharacterInputs ch layout).length % 2 = 0 := by
  unfold AppendVKCharacterInputs
  cases hs : (MapCharacterToVK ch layout).success
  · simp [hs]
  · cases hn : (MapCharacterToVK ch layout).needsShift <;> simp [hs, hn]

theorem AppendVK_length_cases (ch : Nat) (layout : Layout) :
    (AppendVKCharacterInputs ch layout).length = 0 ∨
    (AppendVKCharacterInputs ch layout).length = 2 ∨
    (AppendVKCharacterInputs ch layout).length = 4 := by
  unfold AppendVKCharacterInputs
  cases hs : (MapCharacterToVK ch layout).success
  · simp [hs]
  · cases hn : (MapCharacterToVK ch layout).needsShift <;> simp [hs, hn]

theorem AppendCharacterWithMode_ne_nil (ch : Nat) (mode : InjectionMode)
    (layout : Layout) : AppendCharacterWithMode ch mode layout ≠ [] := by
  cases mode <;> simp only [AppendCharacterWithMode]
  · simp [AppendCharacterInputs]
  · split
    · simp [AppendCharacterInputs]
    · assumption
  · split
    · simp [AppendCharacterInputs]
    · assumption
  · simp [AppendCharacterInputs]

/-- C4: in Hybrid mode, when the VK/scancode encoder reports zero events
for a character the encoder falls back to exactly the 2 Unicode-mode
events, and in every mode the encoder appends a non-zero number of events
for every character and layout. -/
theorem hybrid_encodes_nonzero_with_unicode_fallback (ch : Nat) (layout : Layout) :
    (AppendVKCharacterInputs ch layout = [] →
      AppendCharacterWithMode ch .Hybrid layout = AppendCharacterInputs ch ∧
      (AppendCharacterWithMode ch .Hybrid layout).length = 2) ∧
    (∀ mode, AppendCharacterWithMode ch mode layout ≠ []) := by
  constructor
  · intro h
    refine ⟨by simp [AppendCharacterWithMode, h], ?_⟩
    simp [AppendCharacterWithMode, h, AppendCharacterInputs]
  · intro mode
    exact AppendCharacterWithMode_ne_nil ch mode layout

/-- Witness for C4: the snowman character on a layout with no VK mapping is
unmappable, and Hybrid mode emits exactly the 2 Unicode events for it. -/
theorem hybrid_fallback_witness :
    AppendVKCharacterInputs 9731 layoutNone = [] ∧
    AppendCharacterWithMode 9731 .Hybrid layoutNone = AppendCharacterInputs 9731 ∧
    (AppendCharacterWithMode 9731 .Hybrid layoutNone).length = 2 ∧
    AppendCharacterWithMode 9731 .Hybrid layoutNone ≠ [] := by
  have h := hybrid_encodes_nonzero_with_unicode_fallback 9731 layoutNone
  exact ⟨by decide, (h.1 (by decide)).1, (h.1 (by decide)).2, h.2 .Hybrid⟩

/-- C5: when the VK mapping of a character needs no modifier or only
Shift, VKScancode encoding appends exactly 2 events (no modifier) or
exactly 4 (Shift down, key down, key up, Shift up); the appended count is
never odd; and at the mode level VKScancode encoding of any character
appends exactly 2 or exactly 4 events (the internal Unicode fallback keeps
the count at 2 for unmappable characters). -/
theorem vkscancode_event_count (ch : Nat) (layout : Layout) :
    (∀ vk mods, layout.vkKeyScan ch = some (vk, mods) → mods ≤ 1 →
      (AppendVKCharacterInputs ch layout).length = if mods = 1 then 4 else 2) ∧
    (AppendVKCharacterInputs ch layout).length % 2 = 0 ∧
    ((AppendCharacterWithMode ch .VKScancode layout).length = 2 ∨
      (AppendCharacterWithMode ch .VKScancode layout).length = 4) := by
  refine ⟨fun _ _ h hm => AppendVK_length_accept h hm,
    AppendVK_length_even ch layout, ?_⟩
  by_cases hz : AppendVKCharacterInputs ch layout = []
  · left
    simp [AppendCharacterWithMode, hz, AppendCharacterInputs]
  · rcases AppendVK_length_cases ch layout with h0 | h2 | h4
    · exact absurd (List.length_eq_zero.mp h0) hz
    · left
      simpa [AppendCharacterWithMode, hz] using h2
    · right
      simpa [AppendCharacterWithMode, hz] using h4

/-- Witness for C5: a plain mapping gives 2 events, a Shift mapping 4. -/
theorem vkscancode_event_count_witness :
    (AppendVKCharacterInputs 97 layoutPlain).length = 2 ∧
    (AppendVKCharacterInputs 97 layoutShift).length = 4 ∧
    (AppendVKCharacterInputs 97 layoutPlain).length % 2 = 0 := by
  refine ⟨?_, ?_, (vkscancode_event_count 97 layoutPlain).2.1⟩
  · have h := (vkscancode_event_count 97 layoutPlain).1 65 0 rfl (by decide)
    simpa using h
  · have h := (vkscancode_event_count 97 layoutShift).1 65 1 rfl (by decide)
    simpa using h

/-- C7: the default pacing configuration selects the PerCharacter strategy
for remote targets and Burst for local targets, for every base keystroke
delay. -/
theorem pacing_strategy_selection (keystrokeDelayMs : Nat) :
    (GetDefaultPacingConfig true keystrokeDelayMs).strategy = .PerCharacter ∧
    (GetDefaultPacingConfig false keystrokeDelayMs).strategy = .Burst :=
  ⟨rfl, rfl⟩

/-- C9: the VK mapping step accepts only mappings needing no modifier or
only Shift; a modifier byte above 1 (Ctrl/Alt) or an unmappable character
is rejected, and on rejection the VK/scancode encoder appends zero
events. -/
theorem vk_mapping_rejects_ctrl_alt (ch : Nat) (layout : Layout) :
    (∀ vk mods, layout.vkKeyScan ch = some (vk, mods) → 1 < mods →
      (MapCharacterToVK ch layout).success = false ∧
      AppendVKCharacterInputs ch layout = []) ∧
    (layout.vkKeyScan ch = none →
      (MapCharacterToVK ch layout).success = false ∧
      AppendVKCharacterInputs ch layout = []) ∧
    ((MapCharacterToVK ch layout).success = false →
      AppendVKCharacterInputs ch layout = []) ∧
    ((MapCharacterToVK ch layout).success = true →
      ∃ vk mods, layout.vkKeyScan ch = some (vk, mods) ∧ mods ≤ 1) := by
  refine ⟨?_, ?_, MapCharacterToVK_success_false_append_nil, ?_⟩
  · intro vk mods h hm
    exact ⟨by simp [MapCharacterToVK, h, hm], AppendVK_of_modifier_reject h hm⟩
  · intro h
    exact ⟨by simp [MapCharacterToVK, h], AppendVK_of_scan_none h⟩
  · intro h
    rcases hscan : layout.vkKeyScan ch with _ | ⟨vk, mods⟩
    · rw [MapCharacterToVK, hscan] at h
      simp at h
    · rw [MapCharacterToVK, hscan] at h
      by_cases hm : mods > 1
      · simp [hm] at h
      · exact ⟨vk, mods, rfl, by omega⟩

/-- Witness for C9: a Ctrl-requiring mapping (modifier byte 2) is rejected
and yields zero events. -/
theorem vk_mapping_reject_witness :
    (MapCharacterToVK 97 layoutCtrl).success = false ∧
    AppendVKCharacterInputs 97 layoutCtrl = [] :=
  (vk_mapping_rejects_ctrl_alt 97 layoutCtrl).1 65 2 rfl (by omega)

/-! ### Pipeline helper lemmas -/

theorem exitWith_charsSent (env : Env) (s : LoopState) (st : RunState) :
    (exitWith env s st).charsSent = s.charsSent := rfl

theorem exitWith_state (env : Env) (s : LoopState) (st : RunState) :
    (exitWith env s st).state = st := rfl

theorem exitWith_modesUsed (env : Env) (s : LoopState) (st : RunState) :
    (exitWith env s st).modesUsed = s.modesUsed := rfl

theorem exitWith_actions (env : Env) (s : LoopState) (st : RunState) :
    (exitWith env s st).actions = s.actions ++
      [Action.send resetModifierEvents
        (min (env.sendAccept s.sendCalls resetModifierEvents.length)
          resetModifierEvents.length),
       Action.hookRemove] := by
  simp [exitWith, doSendCall]

/-- Component behaviour of a flush site on the loop state. -/
theorem flushBoundary_spec (env : Env) (cfg : PacingConfig) (s : LoopState) :
    (flushBoundary env cfg s).2.buffer = [] ∧
    (flushBoundary env cfg s).2.modesUsed = s.modesUsed ∧
    (flushBoundary env cfg s).2.abortChecks = s.abortChecks ∧
    (flushBoundary env cfg s).2.charsSinceNewline = s.charsSinceNewline ∧
    ((flushBoundary env cfg s).1 = true →
      (flushBoundary env cfg s).2.charsSent = s.charsSent + s.charsInBuffer ∧
      (flushBoundary env cfg s).2.charsInBuffer = 0) ∧
    ((flushBoundary env cfg s).1 = false →
      (flushBoundary env cfg s).2.charsSent = s.charsSent ∧
      (flushBoundary env cfg s).2.charsInBuffer = s.charsInBuffer) ∧
    (∃ as, (flushBoundary env cfg s).2.actions = s.actions ++ as) := by
  unfold flushBoundary
  rcases flushRaw env cfg s.sendCalls s.buffer with ⟨ok, k', as⟩
  cases ok <;> simp

/-- A paced-strategy flush never reports failure (`FlushInputsWithPacing`
has no failure result; its sent-count is only recorded for diagnostics). -/
theorem flushBoundary_nonBurst (env : Env) (cfg : PacingConfig) (s : LoopState)
    (h : cfg.strategy ≠ .Burst) : (flushBoundary env cfg s).1 = true := by
  unfold flushBoundary flushRaw
  cases hs : cfg.strategy
  · exact absurd hs h
  all_goals
    rcases FlushInputsWithPacing env s.sendCalls s.buffer with ⟨sent, k', as⟩
    simp

@[simp] theorem doSendCall_buffer (env : Env) (s : LoopState) (evs : List KeyEvent) :
    (doSendCall env s evs).buffer = s.buffer := rfl

@[simp] theorem doSendCall_charsSent (env : Env) (s : LoopState) (evs : List KeyEvent) :
    (doSendCall env s evs).charsSent = s.charsSent := rfl

@[simp] theorem doSendCall_charsInBuffer (env : Env) (s : LoopState)
    (evs : List KeyEvent) : (doSendCall env s evs).charsInBuffer = s.charsInBuffer := rfl

@[simp] theorem doSendCall_modesUsed (env : Env) (s : LoopState) (evs : List KeyEvent) :
    (doSendCall env s evs).modesUsed = s.modesUsed := rfl

@[simp] theorem doSendCall_abortChecks (env : Env) (s : LoopState) (evs : List KeyEvent) :
    (doSendCall env s evs).abortChecks = s.abortChecks := rfl

/-- `exitWith` ignores the abort poll counter. -/
theorem exitWith_bumpAbort (env : Env) (s : LoopState) (st : RunState) :
    exitWith env (bumpAbort s) st = exitWith env s st := rfl

@[simp] theorem bumpAbort_buffer (s : LoopState) : (bumpAbort s).buffer = s.buffer := rfl

@[simp] theorem bumpAbort_charsSent (s : LoopState) :
    (bumpAbort s).charsSent = s.charsSent := rfl

@[simp] theorem bumpAbort_charsInBuffer (s : LoopState) :
    (bumpAbort s).charsInBuffer = s.charsInBuffer := rfl

@[simp] theorem bumpAbort_modesUsed (s : LoopState) :
    (bumpAbort s).modesUsed = s.modesUsed := rfl

@[simp] theorem bumpAbort_actions (s : LoopState) :
    (bumpAbort s).actions = s.actions := rfl

@[simp] theorem appendCharState_buffer (s : LoopState) (c : Nat)
    (rmode : InjectionMode) (layout : Layout) :
    (appendCharState s c rmode layout).buffer
      = s.buffer ++ AppendCharacterWithMode c rmode layout := rfl

@[simp] theorem appendCharState_charsSent (s : LoopState) (c : Nat)
    (rmode : InjectionMode) (layout : Layout) :
    (appendCharState s c rmode layout).charsSent = s.charsSent := rfl

@[simp] theorem appendCharState_charsInBuffer (s : LoopState) (c : Nat)
    (rmode : InjectionMode) (layout : Layout) :
    (appendCharState s c rmode layout).charsInBuffer = s.charsInBuffer + 1 := rfl

@[simp] theorem appendCharState_modesUsed (s : LoopState) (c : Nat)
    (rmode : InjectionMode) (layout : Layout) :
    (appendCharState s c rmode layout).modesUsed = s.modesUsed ++ [rmode] := rfl

@[simp] theorem appendCharState_abortChecks (s : LoopState) (c : Nat)
    (rmode : InjectionMode) (layout : Layout) :
    (appendCharState s c rmode layout).abortChecks = s.abortChecks := rfl

@[simp] theorem appendCharState_actions (s : LoopState) (c : Nat)
    (rmode : InjectionMode) (layout : Layout) :
    (appendCharState s c rmode layout).actions = s.actions := rfl

@[simp] theorem enterState_buffer (env : Env) (s : LoopState) :
    (enterState env s).buffer = s.buffer := rfl

@[simp] theorem enterState_charsSent (env : Env) (s : LoopState) :
    (enterState env s).charsSent = s.charsSent + 1 := rfl

@[simp] theorem enterState_charsInBuffer (env : Env) (s : LoopState) :
    (enterState env s).charsInBuffer = s.charsInBuffer := rfl

@[simp] theorem enterState_modesUsed (env : Env) (s : LoopState) :
    (enterState env s).modesUsed = s.modesUsed := rfl

@[simp] theorem enterState_abortChecks (env : Env) (s : LoopState) :
    (enterState env s).abortChecks = s.abortChecks := rfl

/-- The central counting invariant of the character walk: starting from a
state whose buffer emptiness agrees with its pending-character count, the
returned count never exceeds the already-counted characters plus the
pending and remaining ones; on any non-Completed exit it is strictly
below; and a Completed run over CRLF-free remaining text accounts for
every pending and remaining character exactly once. -/
theorem sendGo_counts (env : Env) (cfg : PacingConfig) (rmode : InjectionMode)
    (layout : Layout) :
    ∀ (xs : List Nat) (s : LoopState), (s.buffer = [] ↔ s.charsInBuffer = 0) →
      (sendGo env cfg rmode layout s xs).charsSent
          ≤ s.charsSent + s.charsInBuffer + xs.length ∧
      ((sendGo env cfg rmode layout s xs).state ≠ RunState.Completed →
        (sendGo env cfg rmode layout s xs).charsSent
          < s.charsSent + s.charsInBuffer + xs.length) ∧
      ((sendGo env cfg rmode layout s xs).state = RunState.Completed →
        noCRLF xs = true →
        (sendGo env cfg rmode layout s xs).charsSent
          = s.charsSent + s.charsInBuffer + xs.length) := by
  intro xs
  induction xs with
  | nil =>
    intro s hinv
    by_cases hbe : s.buffer.isEmpty
    · have hcib : s.charsInBuffer = 0 := hinv.mp (List.isEmpty_iff.mp hbe)
      have hres : sendGo env cfg rmode layout s [] = exitWith env s RunState.Completed := by
        simp [sendGo, hbe]
      rw [hres, exitWith_charsSent, exitWith_state]
      exact ⟨by simp only [List.length_nil]; omega, fun h => absurd rfl h,
        fun _ _ => by simp only [List.length_nil]; omega⟩
    · rcases hfb : flushBoundary env cfg s with ⟨ok, s2⟩
      have hspec := flushBoundary_spec env cfg s
      rw [hfb] at hspec
      have hbuf : ¬ s.buffer = [] := fun h => hbe (List.isEmpty_iff.mpr h)
      have hcib : 0 < s.charsInBuffer := Nat.pos_of_ne_zero fun h => hbuf (hinv.mpr h)
      cases ok
      · have hres : sendGo env cfg rmode layout s [] = exitWith env s2 RunState.Failed := by
          simp [sendGo, hbe, hfb]
        have h2 : s2.charsSent = s.charsSent := (hspec.2.2.2.2.2.1 rfl).1
        rw [hres, exitWith_charsSent, exitWith_state, h2]
        exact ⟨by simp only [List.length_nil]; omega,
          fun _ => by simp only [List.length_nil]; omega, fun h => by simp at h⟩
      · have hres : sendGo env cfg rmode layout s []
            = exitWith env s2 RunState.Completed := by
          simp [sendGo, hbe, hfb]
        have h2 : s2.charsSent = s.charsSent + s.charsInBuffer :=
          (hspec.2.2.2.2.1 rfl).1
        rw [hres, exitWith_charsSent, exitWith_state, h2]
        exact ⟨by simp only [List.length_nil]; omega, fun h => absurd rfl h,
          fun _ _ => by simp only [List.length_nil]; omega⟩
  | cons c rest ih =>
    intro s hinv
    by_cases hbe : s.buffer.isEmpty
    case pos =>
      have hcib0 : s.charsInBuffer = 0 := hinv.mp (List.isEmpty_iff.mp hbe)
      by_cases hab : env.abortFlag s.abortChecks
      · have hres : sendGo env cfg rmode layout s (c :: rest)
            = exitWith env s RunState.Aborted := by
          simp [sendGo, hbe, hab, exitWith_bumpAbort]
        rw [hres, exitWith_charsSent, exitWith_state]
        exact ⟨by simp only [List.length_cons]; omega,
          fun _ => by simp only [List.length_cons]; omega, fun h => by simp at h⟩
      · by_cases hcr : (c == 13 && nextIsLF rest) = true
        · have hres : sendGo env cfg rmode layout s (c :: rest)
              = sendGo env cfg rmode layout (bumpAbort s) rest := by
            simp [sendGo, hbe, hab, hcr]
          obtain ⟨ih1, ih2, ih3⟩ := ih (bumpAbort s) (by simpa using hinv)
          simp only [bumpAbort_charsSent, bumpAbort_charsInBuffer] at ih1 ih2 ih3
          rw [hres]
          refine ⟨?_, fun h => ?_, fun h hno => ?_⟩
          · simp only [List.length_cons]
            omega
          · have := ih2 h
            simp only [List.length_cons]
            omega
          · exfalso
            rw [noCRLF, hcr] at hno
            simp at hno
        · by_cases hnl : (c == 10 || c == 13) = true
          · have hres : sendGo env cfg rmode layout s (c :: rest)
                = sendGo env cfg rmode layout (enterState env (bumpAbort s)) rest := by
              simp [sendGo, hbe, hab, hcr, hnl]
            obtain ⟨ih1, ih2, ih3⟩ := ih (enterState env (bumpAbort s)) (by simpa using hinv)
            simp only [enterState_charsSent, enterState_charsInBuffer,
              bumpAbort_charsSent, bumpAbort_charsInBuffer] at ih1 ih2 ih3
            have hno' : noCRLF (c :: rest) = true → noCRLF rest = true := by
              intro hno
              rw [noCRLF] at hno
              exact ((Bool.and_eq_true _ _).mp hno).2
            rw [hres]
            refine ⟨?_, fun h => ?_, fun h hno => ?_⟩
            · simp only [List.length_cons]
              omega
            · have := ih2 h
              simp only [List.length_cons]
              omega
            · have := ih3 h (hno' hno)
              simp only [List.length_cons]
              omega
          · have hbapp : s.buffer ++ AppendCharacterWithMode c rmode layout ≠ [] := by
              intro hnil
              exact AppendCharacterWithMode_ne_nil c rmode layout
                (List.append_eq_nil.mp hnil).2
            by_cases hch : (if cfg.strategy = PacingStrategy.Burst then CHUNK_SIZE else 1)
                ≤ s.charsInBuffer + 1
            · rcases hfb : flushBoundary env cfg
                  (appendCharState (bumpAbort s) c rmode layout) with ⟨ok, s2⟩
              have hspec := flushBoundary_spec env cfg
                (appendCharState (bumpAbort s) c rmode layout)
              rw [hfb] at hspec
              cases ok
              · have hres : sendGo env cfg rmode layout s (c :: rest)
                    = exitWith env s2 RunState.Failed := by
                  simp [sendGo, hbe, hab, hcr, hnl, hch, hfb]
                have h2 : s2.charsSent = s.charsSent := by
                  have := (hspec.2.2.2.2.2.1 rfl).1
                  simpa using this
                rw [hres, exitWith_charsSent, exitWith_state, h2]
                exact ⟨by simp only [List.length_cons]; omega,
                  fun _ => by simp only [List.length_cons]; omega,
                  fun h => by simp at h⟩
              · have hres : sendGo env cfg rmode layout s (c :: rest)
                    = sendGo env cfg rmode layout s2 rest := by
                  simp [sendGo, hbe, hab, hcr, hnl, hch, hfb]
                have h2 : s2.charsSent = s.charsSent + (s.charsInBuffer + 1) := by
                  have := (hspec.2.2.2.2.1 rfl).1
                  simpa using this
                have hcb2 : s2.charsInBuffer = 0 := (hspec.2.2.2.2.1 rfl).2
                have hb2 : s2.buffer = [] := hspec.1
                obtain ⟨ih1, ih2, ih3⟩ := ih s2 (by simp [hb2, hcb2])
                rw [h2, hcb2] at ih1 ih2 ih3
                have hno' : noCRLF (c :: rest) = true → noCRLF rest = true := by
                  intro hno
                  rw [noCRLF] at hno
                  exact ((Bool.and_eq_true _ _).mp hno).2
                rw [hres]
                refine ⟨?_, fun h => ?_, fun h hno => ?_⟩
                · simp only [List.length_cons]
                  omega
                · have := ih2 h
                  simp only [List.length_cons]
                  omega
                · have := ih3 h (hno' hno)
                  simp only [List.length_cons]
                  omega
            · have hres : sendGo env cfg rmode layout s (c :: rest)
                  = sendGo env cfg rmode layout
                      (appendCharState (bumpAbort s) c rmode layout) rest := by
                simp [sendGo, hbe, hab, hcr, hnl, hch]
              have hinv1 : (appendCharState (bumpAbort s) c rmode layout).buffer = []
                  ↔ (appendCharState (bumpAbort s) c rmode layout).charsInBuffer = 0 :=
                iff_of_false (by simpa using hbapp) (by simp)
              obtain ⟨ih1, ih2, ih3⟩ :=
                ih (appendCharState (bumpAbort s) c rmode layout) hinv1
              simp only [appendCharState_charsSent, appendCharState_charsInBuffer,
                bumpAbort_charsSent, bumpAbort_charsInBuffer] at ih1 ih2 ih3
              have hno' : noCRLF (c :: rest) = true → noCRLF rest = true := by
                intro hno
                rw [noCRLF] at hno
                exact ((Bool.and_eq_true _ _).mp hno).2
              rw [hres]
              refine ⟨?_, fun h => ?_, fun h hno => ?_⟩
              · simp only [List.length_cons]
                omega
              · have := ih2 h
                simp only [List.length_cons]
                omega
              · have := ih3 h (hno' hno)
                simp only [List.length_cons]
                omega
    case neg =>
      have hbuf : ¬ s.buffer = [] := fun h => hbe (List.isEmpty_iff.mpr h)
      have hcib : 0 < s.charsInBuffer := Nat.pos_of_ne_zero fun h => hbuf (hinv.mpr h)
      by_cases hcr : (c == 13 && nextIsLF rest) = true
      · have hres : sendGo env cfg rmode layout s (c :: rest)
            = sendGo env cfg rmode layout s rest := by
          simp [sendGo, hbe, hcr]
        obtain ⟨ih1, ih2, ih3⟩ := ih s hinv
        rw [hres]
        refine ⟨?_, fun h => ?_, fun h hno => ?_⟩
        · simp only [List.length_cons]
          omega
        · have := ih2 h
          simp only [List.length_cons]
          omega
        · exfalso
          rw [noCRLF, hcr] at hno
          simp at hno
      · by_cases hnl : (c == 10 || c == 13) = true
        · rcases hfb : flushBoundary env cfg s with ⟨ok, s1⟩
          have hspec := flushBoundary_spec env cfg s
          rw [hfb] at hspec
          cases ok
          · have hres : sendGo env cfg rmode layout s (c :: rest)
                = exitWith env s1 RunState.Failed := by
              simp [sendGo, hbe, hcr, hnl, hfb]
            have h2 : s1.charsSent = s.charsSent := (hspec.2.2.2.2.2.1 rfl).1
            rw [hres, exitWith_charsSent, exitWith_state, h2]
            exact ⟨by simp only [List.length_cons]; omega,
              fun _ => by simp only [List.length_cons]; omega,
              fun h => by simp at h⟩
          · have hres : sendGo env cfg rmode layout s (c :: rest)
                = sendGo env cfg rmode layout (enterState env s1) rest := by
              simp [sendGo, hbe, hcr, hnl, hfb]
            have h2 : s1.charsSent = s.charsSent + s.charsInBuffer :=
              (hspec.2.2.2.2.1 rfl).1
            have hcb1 : s1.charsInBuffer = 0 := (hspec.2.2.2.2.1 rfl).2
            have hb1 : s1.buffer = [] := hspec.1
            obtain ⟨ih1, ih2, ih3⟩ := ih (enterState env s1) (by simp [hb1, hcb1])
            simp only [enterState_charsSent, enterState_charsInBuffer,
              h2, hcb1] at ih1 ih2 ih3
            have hno' : noCRLF (c :: rest) = true → noCRLF rest = true := by
              intro hno
              rw [noCRLF] at hno
              exact ((Bool.and_eq_true _ _).mp hno).2
            rw [hres]
            refine ⟨?_, fun h => ?_, fun h hno => ?_⟩
            · simp only [List.length_cons]
              omega
            · have := ih2 h
              simp only [List.length_cons]
              omega
            · have := ih3 h (hno' hno)
              simp only [List.length_cons]
              omega
        · have hbapp : s.buffer ++ AppendCharacterWithMode c rmode layout ≠ [] := by
            intro hnil
            exact AppendCharacterWithMode_ne_nil c rmode layout
              (List.append_eq_nil.mp hnil).2
          by_cases hch : (if cfg.strategy = PacingStrategy.Burst then CHUNK_SIZE else 1)
              ≤ s.charsInBuffer + 1
          · rcases hfb : flushBoundary env cfg
                (appendCharState s c rmode layout) with ⟨ok, s2⟩
            have hspec := flushBoundary_spec env cfg (appendCharState s c rmode layout)
            rw [hfb] at hspec
            cases ok
            · have hres : sendGo env cfg rmode layout s (c :: rest)
                  = exitWith env s2 RunState.Failed := by
                simp [sendGo, hbe, hcr, hnl, hch, hfb]
              have h2 : s2.charsSent = s.charsSent := by
                have := (hspec.2.2.2.2.2.1 rfl).1
                simpa using this
              rw [hres, exitWith_charsSent, exitWith_state, h2]
              exact ⟨by simp only [List.length_cons]; omega,
                fun _ => by simp only [List.length_cons]; omega,
                fun h => by simp at h⟩
            · have hres : sendGo env cfg rmode layout s (c :: rest)
                  = sendGo env cfg rmode layout s2 rest := by
                simp [sendGo, hbe, hcr, hnl, hch, hfb]
              have h2 : s2.charsSent = s.charsSent + (s.charsInBuffer + 1) := by
                have := (hspec.2.2.2.2.1 rfl).1
                simpa using this
              have hcb2 : s2.charsInBuffer = 0 := (hspec.2.2.2.2.1 rfl).2
              have hb2 : s2.buffer = [] := hspec.1
              obtain ⟨ih1, ih2, ih3⟩ := ih s2 (by simp [hb2, hcb2])
              rw [h2, hcb2] at ih1 ih2 ih3
              have hno' : noCRLF (c :: rest) = true → noCRLF rest = true := by
                intro hno
                rw [noCRLF] at hno
                exact ((Bool.and_eq_true _ _).mp hno).2
              rw [hres]
              refine ⟨?_, fun h => ?_, fun h hno => ?_⟩
              · simp only [List.length_cons]
                omega
              · have := ih2 h
                simp only [List.length_cons]
                omega
              · have := ih3 h (hno' hno)
                simp only [List.length_cons]
                omega
          · have hres : sendGo env cfg rmode layout s (c :: rest)
                = sendGo env cfg rmode layout (appendCharState s c rmode layout) rest := by
              simp [sendGo, hbe, hcr, hnl, hch]
            have hinv1 : (appendCharState s c rmode layout).buffer = []
                ↔ (appendCharState s c rmode layout).charsInBuffer = 0 :=
              iff_of_false (by simpa using hbapp) (by simp)
            obtain ⟨ih1, ih2, ih3⟩ := ih (appendCharState s c rmode layout) hinv1
            simp only [appendCharState_charsSent,
              appendCharState_charsInBuffer] at ih1 ih2 ih3
            have hno' : noCRLF (c :: rest) = true → noCRLF rest = true := by
              intro hno
              rw [noCRLF] at hno
              exact ((Bool.and_eq_true _ _).mp hno).2
            rw [hres]
            refine ⟨?_, fun h => ?_, fun h hno => ?_⟩
            · simp only [List.length_cons]
              omega
            · have := ih2 h
              simp only [List.length_cons]
              omega
            · have := ih3 h (hno' hno)
              simp only [List.length_cons]
              omega


/-- The three counting facts of `sendGo_counts` at the whole-run level:
`charsRequested` is the length of the (already normalized) input text. -/
theorem run_counts (env : Env) (layout : Layout) (text : List Nat)
    (mode : InjectionMode) (cfg : PacingConfig) :
    (sendTextToWindowEx env layout text mode cfg).charsSent ≤ text.length ∧
    ((sendTextToWindowEx env layout text mode cfg).state ≠ RunState.Completed →
      (sendTextToWindowEx env layout text mode cfg).charsSent < text.length) ∧
    ((sendTextToWindowEx env layout text mode cfg).state = RunState.Completed →
      noCRLF text = true →
      (sendTextToWindowEx env layout text mode cfg).charsSent = text.length) := by
  have hinv : (doSendCall env initState resetModifierEvents).buffer = []
      ↔ (doSendCall env initState resetModifierEvents).charsInBuffer = 0 := by
    simp [initState]
  obtain ⟨h1, h2, h3⟩ := sendGo_counts env cfg (resolveAuto mode) layout text
    (doSendCall env initState resetModifierEvents) hinv
  simp only [doSendCall_charsSent, doSendCall_charsInBuffer] at h1 h2 h3
  have e1 : initState.charsSent = 0 := rfl
  have e2 : initState.charsInBuffer = 0 := rfl
  rw [e1, e2] at h1 h2 h3
  simp only [Nat.zero_add] at h1 h2 h3
  rw [sendTextToWindowEx]
  exact ⟨h1, h2, h3⟩

/-- C1 (amended): for every run, `charsSent ≤ charsRequested` where
`charsRequested` is the length of the normalized input text; and for input
texts containing no CRLF pair, `charsSent = charsRequested` iff the run
reached the Completed terminal state.  (The `\r` of a CRLF pair is skipped
and never counted, so for texts containing CRLF even a Completed run
returns strictly fewer characters than requested — see the
counterexample.) -/
theorem run_charsSent_le_completed_iff (env : Env) (layout : Layout)
    (text : List Nat) (mode : InjectionMode) (cfg : PacingConfig) :
    (sendTextToWindowEx env layout text mode cfg).charsSent ≤ text.length ∧
    (noCRLF text = true →
      ((sendTextToWindowEx env layout text mode cfg).charsSent = text.length ↔
        (sendTextToWindowEx env layout text mode cfg).state = RunState.Completed)) := by
  obtain ⟨h1, h2, h3⟩ := run_counts env layout text mode cfg
  refine ⟨h1, fun hno => ⟨fun heq => ?_, fun hC => h3 hC hno⟩⟩
  by_contra hC
  exact absurd heq (Nat.ne_of_lt (h2 hC))

/-- Counterexample for C1 as stated: the two-code-unit text `"\r\n"` runs
to Completed with every event accepted and no abort, yet returns
charsSent = 1 < 2 = charsRequested: equality does not follow from
Completed. -/
theorem run_crlf_completed_under_count :
    (sendTextToWindowEx envAcceptAll layoutNone [13, 10] .Unicode cfgBurst0).state
        = RunState.Completed ∧
    (sendTextToWindowEx envAcceptAll layoutNone [13, 10] .Unicode cfgBurst0).charsSent
        = 1 ∧
    ([13, 10] : List Nat).length = 2 :=
  ⟨by decide, by decide, rfl⟩

/-- Witness for C1 on the CRLF-free text "ab". -/
theorem run_charsSent_le_witness :
    noCRLF [97, 98] = true ∧
    (sendTextToWindowEx envAcceptAll layoutNone [97, 98] .Unicode cfgBurst0).charsSent
        ≤ 2 ∧
    ((sendTextToWindowEx envAcceptAll layoutNone [97, 98] .Unicode cfgBurst0).charsSent
          = 2 ↔
      (sendTextToWindowEx envAcceptAll layoutNone [97, 98] .Unicode cfgBurst0).state
          = RunState.Completed) := by
  have h := run_charsSent_le_completed_iff envAcceptAll layoutNone [97, 98]
    .Unicode cfgBurst0
  exact ⟨by decide, h.1, h.2 (by decide)⟩

/-- Every exit path runs `inject::ResetModifiers` and then removes the
abort hook. -/
theorem modResetBeforeReturn_exitWith (env : Env) (s : LoopState) (st : RunState) :
    modResetBeforeReturn (exitWith env s st).actions = true := by
  rw [exitWith_actions, modResetBeforeReturn]
  simp

/-- Every result of the character walk ends with the modifier reset and the
hook removal, on all three exit paths. -/
theorem sendGo_modReset (env : Env) (cfg : PacingConfig) (rmode : InjectionMode)
    (layout : Layout) (s : LoopState) (xs : List Nat) :
    modResetBeforeReturn (sendGo env cfg rmode layout s xs).actions = true := by
  induction s, xs using sendGo.induct env cfg rmode layout <;>
    · simp only [sendGo]
      repeat' split
      all_goals simp_all +zetaDelta [modResetBeforeReturn_exitWith]

/-- Whole-run version of `sendGo_modReset`. -/
theorem run_modReset (env : Env) (layout : Layout) (text : List Nat)
    (mode : InjectionMode) (cfg : PacingConfig) :
    modResetBeforeReturn (sendTextToWindowEx env layout text mode cfg).actions = true := by
  rw [sendTextToWindowEx]
  exact sendGo_modReset env cfg (resolveAuto mode) layout _ text


/-- If the abort flag reads true at every poll, any nonempty text aborts at
the very first buffer-empty boundary poll. -/
theorem abort_always_aborted (env : Env) (layout : Layout) (mode : InjectionMode)
    (cfg : PacingConfig) (text : List Nat)
    (henv : ∀ k, env.abortFlag k = true) (ht : text ≠ []) :
    (sendTextToWindowEx env layout text mode cfg).state = RunState.Aborted := by
  rcases text with _ | ⟨c, rest⟩
  · exact absurd rfl ht
  · rw [sendTextToWindowEx]
    simp [sendGo, initState, henv, exitWith_state]

/-- C6 (amended): whenever the run terminates in the Aborted state (the
abort flag was observed set at a buffer-empty boundary poll), the returned
count is strictly below charsRequested; the six-modifier reset is the last
SendInput call before the hook removal on every exit path; and a flag that
is set by the time of every poll is always observed (any nonempty text
yields Aborted). -/
theorem abort_observed_partial_and_reset (env : Env) (layout : Layout)
    (text : List Nat) (mode : InjectionMode) (cfg : PacingConfig) :
    ((sendTextToWindowEx env layout text mode cfg).state = RunState.Aborted →
      (sendTextToWindowEx env layout text mode cfg).charsSent < text.length) ∧
    modResetBeforeReturn (sendTextToWindowEx env layout text mode cfg).actions = true ∧
    ((∀ k, env.abortFlag k = true) → text ≠ [] →
      (sendTextToWindowEx env layout text mode cfg).state = RunState.Aborted) := by
  refine ⟨fun hA => ?_, run_modReset env layout text mode cfg,
    fun henv ht => abort_always_aborted env layout mode cfg text henv ht⟩
  exact (run_counts env layout text mode cfg).2.1 (by rw [hA]; simp)

/-- Witness for C6: with the flag set from the start, the one-character run
aborts with 0 < 1 characters and the modifiers reset before return. -/
theorem abort_observed_witness :
    (sendTextToWindowEx envAbortAlways layoutNone [97] .Unicode cfgBurst0).state
        = RunState.Aborted ∧
    (sendTextToWindowEx envAbortAlways layoutNone [97] .Unicode cfgBurst0).charsSent
        < 1 ∧
    modResetBeforeReturn
      (sendTextToWindowEx envAbortAlways layoutNone [97] .Unicode cfgBurst0).actions
        = true := by
  have h := abort_observed_partial_and_reset envAbortAlways layoutNone [97]
    .Unicode cfgBurst0
  have hA := h.2.2 (fun _ => rfl) (by simp)
  exact ⟨hA, h.1 hA, h.2.1⟩

/-- Counterexample for C6 as stated: the abort flag becomes set while the
run is in progress — after the run's first (and only) boundary poll, which
reads false (poll 0), every later poll would read true — yet the run never
polls again, completes, and returns the full count 2 = charsRequested
instead of aborting with a partial count. -/
theorem abort_set_mid_run_completes :
    envAbortAfterFirst.abortFlag 0 = false ∧
    envAbortAfterFirst.abortFlag 1 = true ∧
    (sendTextToWindowEx envAbortAfterFirst layoutNone [97, 98] .Unicode cfgBurst0).state
        = RunState.Completed ∧
    (sendTextToWindowEx envAbortAfterFirst layoutNone [97, 98] .Unicode cfgBurst0).charsSent
        = 2 :=
  ⟨rfl, rfl, by decide, by decide⟩

/-- All-rejecting OS: the burst retry loop makes exactly `tries` calls and
reports no progress. -/
theorem flushBurstTry_reject (env : Env) (hrej : ∀ k n, env.sendAccept k n = 0)
    (remaining : List KeyEvent) :
    ∀ t k, flushBurstTry env k remaining t
      = (none, k + t, List.replicate t (Action.send remaining 0)) := by
  intro t
  induction t with
  | zero => intro k; simp [flushBurstTry]
  | succ t iht =>
    intro k
    rw [flushBurstTry]
    simp only [hrej, Nat.zero_min, Nat.min_zero]
    rw [iht (k + 1)]
    simp [List.replicate_succ]
    omega

/-- All-rejecting OS: `inject::FlushInputs` on a nonempty buffer makes
exactly `MAX_RETRY_COUNT` = 3 consecutive rejected SendInput calls and
fails. -/
theorem FlushInputs_reject (env : Env) (hrej : ∀ k n, env.sendAccept k n = 0)
    (k : Nat) (buf : List KeyEvent) (hne : buf ≠ []) :
    FlushInputs env k buf
      = (false, k + MAX_RETRY_COUNT,
          List.replicate MAX_RETRY_COUNT (Action.send buf 0)) := by
  rw [FlushInputs, if_neg hne]
  rcases buf with _ | ⟨e, rest⟩
  · exact absurd rfl hne
  · show flushBurstGo env (rest.length + 1) k (e :: rest) = _
    rw [flushBurstGo, flushBurstTry_reject env hrej (e :: rest) MAX_RETRY_COUNT k]

/-- All-rejecting OS: the paced retry loop on one event makes exactly
`tries` calls and reports failure. -/
theorem pacedTryOne_reject (env : Env) (hrej : ∀ k n, env.sendAccept k n = 0)
    (e : KeyEvent) :
    ∀ t k, pacedTryOne env k e t
      = (false, k + t, List.replicate t (Action.send [e] 0)) := by
  intro t
  induction t with
  | zero => intro k; simp [pacedTryOne]
  | succ t iht =>
    intro k
    rw [pacedTryOne]
    simp only [hrej, Nat.zero_min, Nat.min_zero]
    rw [iht (k + 1)]
    simp [List.replicate_succ]
    omega

/-- All-rejecting OS: `inject::FlushInputsWithPacing` gives up after
exactly `MAX_RETRY_COUNT` = 3 consecutive rejected calls on the first
event, reporting 0 events sent — but no failure. -/
theorem FlushInputsWithPacing_reject (env : Env)
    (hrej : ∀ k n, env.sendAccept k n = 0) (k : Nat) (e : KeyEvent)
    (rest : List KeyEvent) :
    FlushInputsWithPacing env k (e :: rest)
      = (0, k + MAX_RETRY_COUNT,
          List.replicate MAX_RETRY_COUNT (Action.send [e] 0)) := by
  rw [FlushInputsWithPacing, if_neg (by simp), pacedGo,
    pacedTryOne_reject env hrej e MAX_RETRY_COUNT k]

/-- All-rejecting OS under Burst: a flush site with pending events reports
failure. -/
theorem flushBoundary_reject_burst (env : Env) (cfg : PacingConfig) (s : LoopState)
    (hrej : ∀ k n, env.sendAccept k n = 0) (hstrat : cfg.strategy = .Burst)
    (hbuf : s.buffer ≠ []) : (flushBoundary env cfg s).1 = false := by
  unfold flushBoundary flushRaw
  rw [hstrat, FlushInputs_reject env hrej s.sendCalls s.buffer hbuf]


/-- All-rejecting OS, Burst strategy: once there is a pending event (or a
character that will be buffered remains), the run terminates Failed. -/
theorem sendGo_reject_burst (env : Env) (cfg : PacingConfig) (rmode : InjectionMode)
    (layout : Layout) (hrej : ∀ k n, env.sendAccept k n = 0)
    (hab : ∀ k, env.abortFlag k = false) (hstrat : cfg.strategy = .Burst) :
    ∀ (xs : List Nat) (s : LoopState), (s.buffer ≠ [] ∨ hasPrintable xs = true) →
      (sendGo env cfg rmode layout s xs).state = RunState.Failed := by
  intro xs
  induction xs with
  | nil =>
    intro s hcond
    have hbuf : s.buffer ≠ [] := by
      rcases hcond with h | h
      · exact h
      · simp [hasPrintable] at h
    cases hbe : s.buffer.isEmpty
    · rcases hfb : flushBoundary env cfg s with ⟨ok, s1⟩
      have hko : ok = false := by
        have := flushBoundary_reject_burst env cfg s hrej hstrat hbuf
        rw [hfb] at this
        exact this
      subst hko
      have hres : sendGo env cfg rmode layout s [] = exitWith env s1 RunState.Failed := by
        simp [sendGo, hbe, hfb]
      rw [hres, exitWith_state]
    · exact absurd (List.isEmpty_iff.mp hbe) hbuf
  | cons c rest ih =>
    intro s hcond
    by_cases hbe : s.buffer.isEmpty
    case pos =>
      have hbuf0 : s.buffer = [] := List.isEmpty_iff.mp hbe
      have hpr : hasPrintable (c :: rest) = true := by
        rcases hcond with h | h
        · exact absurd hbuf0 h
        · exact h
      by_cases hcr : (c == 13 && nextIsLF rest) = true
      · have hres : sendGo env cfg rmode layout s (c :: rest)
            = sendGo env cfg rmode layout (bumpAbort s) rest := by
          simp [sendGo, hbe, hab, hcr]
        rw [hres]
        apply ih
        right
        have hc13 : c = 13 := by
          have := ((Bool.and_eq_true _ _).mp hcr).1
          simpa using this
        rw [hasPrintable] at hpr
        simpa [hc13] using hpr
      · by_cases hnl : (c == 10 || c == 13) = true
        · have hres : sendGo env cfg rmode layout s (c :: rest)
              = sendGo env cfg rmode layout (enterState env (bumpAbort s)) rest := by
            simp [sendGo, hbe, hab, hcr, hnl]
          rw [hres]
          apply ih
          right
          rw [hasPrintable] at hpr
          simpa [hnl] using hpr
        · have hbapp : s.buffer ++ AppendCharacterWithMode c rmode layout ≠ [] := by
            intro hnil
            exact AppendCharacterWithMode_ne_nil c rmode layout
              (List.append_eq_nil.mp hnil).2
          by_cases hch : (if cfg.strategy = PacingStrategy.Burst then CHUNK_SIZE else 1)
              ≤ s.charsInBuffer + 1
          · rcases hfb : flushBoundary env cfg
                (appendCharState (bumpAbort s) c rmode layout) with ⟨ok, s2⟩
            have hko : ok = false := by
              have := flushBoundary_reject_burst env cfg
                (appendCharState (bumpAbort s) c rmode layout) hrej hstrat
                (by simpa using hbapp)
              rw [hfb] at this
              exact this
            subst hko
            have hres : sendGo env cfg rmode layout s (c :: rest)
                = exitWith env s2 RunState.Failed := by
              simp [sendGo, hbe, hab, hcr, hnl, hch, hfb]
            rw [hres, exitWith_state]
          · have hres : sendGo env cfg rmode layout s (c :: rest)
                = sendGo env cfg rmode layout
                    (appendCharState (bumpAbort s) c rmode layout) rest := by
              simp [sendGo, hbe, hab, hcr, hnl, hch]
            rw [hres]
            apply ih
            left
            simpa using hbapp
    case neg =>
      have hbuf : s.buffer ≠ [] := fun h => hbe (List.isEmpty_iff.mpr h)
      by_cases hcr : (c == 13 && nextIsLF rest) = true
      · have hres : sendGo env cfg rmode layout s (c :: rest)
            = sendGo env cfg rmode layout s rest := by
          simp [sendGo, hbe, hcr]
        rw [hres]
        exact ih s (Or.inl hbuf)
      · by_cases hnl : (c == 10 || c == 13) = true
        · rcases hfb : flushBoundary env cfg s with ⟨ok, s1⟩
          have hko : ok = false := by
            have := flushBoundary_reject_burst env cfg s hrej hstrat hbuf
            rw [hfb] at this
            exact this
          subst hko
          have hres : sendGo env cfg rmode layout s (c :: rest)
              = exitWith env s1 RunState.Failed := by
            simp [sendGo, hbe, hcr, hnl, hfb]
          rw [hres, exitWith_state]
        · have hbapp : s.buffer ++ AppendCharacterWithMode c rmode layout ≠ [] := by
            intro hnil
            exact AppendCharacterWithMode_ne_nil c rmode layout
              (List.append_eq_nil.mp hnil).2
          by_cases hch : (if cfg.strategy = PacingStrategy.Burst then CHUNK_SIZE else 1)
              ≤ s.charsInBuffer + 1
          · rcases hfb : flushBoundary env cfg
                (appendCharState s c rmode layout) with ⟨ok, s2⟩
            have hko : ok = false := by
              have := flushBoundary_reject_burst env cfg
                (appendCharState s c rmode layout) hrej hstrat (by simpa using hbapp)
              rw [hfb] at this
              exact this
            subst hko
            have hres : sendGo env cfg rmode layout s (c :: rest)
                = exitWith env s2 RunState.Failed := by
              simp [sendGo, hbe, hcr, hnl, hch, hfb]
            rw [hres, exitWith_state]
          · have hres : sendGo env cfg rmode layout s (c :: rest)
                = sendGo env cfg rmode layout (appendCharState s c rmode layout) rest := by
              simp [sendGo, hbe, hcr, hnl, hch]
            rw [hres]
            apply ih
            left
            simpa using hbapp

/-- Under a paced strategy the walk has no failure exit: with the abort
flag never set, every run falls through to the Completed return. -/
theorem sendGo_nonburst_completed (env : Env) (cfg : PacingConfig)
    (rmode : InjectionMode) (layout : Layout)
    (hab : ∀ k, env.abortFlag k = false) (hstrat : cfg.strategy ≠ .Burst) :
    ∀ (xs : List Nat) (s : LoopState),
      (sendGo env cfg rmode layout s xs).state = RunState.Completed := by
  intro xs
  induction xs with
  | nil =>
    intro s
    by_cases hbe : s.buffer.isEmpty
    · have hres : sendGo env cfg rmode layout s [] = exitWith env s RunState.Completed := by
        simp [sendGo, hbe]
      rw [hres, exitWith_state]
    · rcases hfb : flushBoundary env cfg s with ⟨ok, s1⟩
      have hko : ok = true := by
        have := flushBoundary_nonBurst env cfg s hstrat
        rw [hfb] at this
        exact this
      subst hko
      have hres : sendGo env cfg rmode layout s []
          = exitWith env s1 RunState.Completed := by
        simp [sendGo, hbe, hfb]
      rw [hres, exitWith_state]
  | cons c rest ih =>
    intro s
    by_cases hbe : s.buffer.isEmpty
    case pos =>
      by_cases hab0 : env.abortFlag s.abortChecks
      · rw [hab s.abortChecks] at hab0
        simp at hab0
      · by_cases hcr : (c == 13 && nextIsLF rest) = true
        · have hres : sendGo env cfg rmode layout s (c :: rest)
              = sendGo env cfg rmode layout (bumpAbort s) rest := by
            simp [sendGo, hbe, hab0, hcr]
          rw [hres]
          exact ih _
        · by_cases hnl : (c == 10 || c == 13) = true
          · have hres : sendGo env cfg rmode layout s (c :: rest)
                = sendGo env cfg rmode layout (enterState env (bumpAbort s)) rest := by
              simp [sendGo, hbe, hab0, hcr, hnl]
            rw [hres]
            exact ih _
          · by_cases hch : (if cfg.strategy = PacingStrategy.Burst then CHUNK_SIZE else 1)
                ≤ s.charsInBuffer + 1
            · rcases hfb : flushBoundary env cfg
                  (appendCharState (bumpAbort s) c rmode layout) with ⟨ok, s2⟩
              have hko : ok = true := by
                have := flushBoundary_nonBurst env cfg
                  (appendCharState (bumpAbort s) c rmode layout) hstrat
                rw [hfb] at this
                exact this
              subst hko
              have hres : sendGo env cfg rmode layout s (c :: rest)
                  = sendGo env cfg rmode layout s2 rest := by
                simp [sendGo, hbe, hab0, hcr, hnl, hch, hfb]
              rw [hres]
              exact ih _
            · have hres : sendGo env cfg rmode layout s (c :: rest)
                  = sendGo env cfg rmode layout
                      (appendCharState (bumpAbort s) c rmode layout) rest := by
                simp [sendGo, hbe, hab0, hcr, hnl, hch]
              rw [hres]
              exact ih _
    case neg =>
      by_cases hcr : (c == 13 && nextIsLF rest) = true
      · have hres : sendGo env cfg rmode layout s (c :: rest)
            = sendGo env cfg rmode layout s rest := by
          simp [sendGo, hbe, hcr]
        rw [hres]
        exact ih _
      · by_cases hnl : (c == 10 || c == 13) = true
        · rcases hfb : flushBoundary env cfg s with ⟨ok, s1⟩
          have hko : ok = true := by
            have := flushBoundary_nonBurst env cfg s hstrat
            rw [hfb] at this
            exact this
          subst hko
          have hres : sendGo env cfg rmode layout s (c :: rest)
              = sendGo env cfg rmode layout (enterState env s1) rest := by
            simp [sendGo, hbe, hcr, hnl, hfb]
          rw [hres]
          exact ih _
        · by_cases hch : (if cfg.strategy = PacingStrategy.Burst then CHUNK_SIZE else 1)
              ≤ s.charsInBuffer + 1
          · rcases hfb : flushBoundary env cfg
                (appendCharState s c rmode layout) with ⟨ok, s2⟩
            have hko : ok = true := by
              have := flushBoundary_nonBurst env cfg
                (appendCharState s c rmode layout) hstrat
              rw [hfb] at this
              exact this
            subst hko
            have hres : sendGo env cfg rmode layout s (c :: rest)
                = sendGo env cfg rmode layout s2 rest := by
              simp [sendGo, hbe, hcr, hnl, hch, hfb]
            rw [hres]
            exact ih _
          · have hres : sendGo env cfg rmode layout s (c :: rest)
                = sendGo env cfg rmode layout (appendCharState s c rmode layout) rest := by
              simp [sendGo, hbe, hcr, hnl, hch]
            rw [hres]
            exact ih _


/-- C2 (amended): every flush retry loop gives up after exactly
`MAX_RETRY_COUNT` = 3 consecutive rejected SendInput calls — not fewer or
more.  Under the Burst strategy this is fatal: for any text with at least
one buffered (non-line-break) character the run terminates Failed with a
partial count.  Under the paced strategies (PerCharacter/PerEvent) the
flush gives up the same way but reports no failure: the run continues,
still counts the rejected characters as sent, and terminates Completed. -/
theorem flush_retry_bound_semantics (env : Env)
    (hrej : ∀ k n, env.sendAccept k n = 0) (hab : ∀ k, env.abortFlag k = false) :
    (∀ k buf, buf ≠ [] → FlushInputs env k buf
      = (false, k + MAX_RETRY_COUNT,
          List.replicate MAX_RETRY_COUNT (Action.send buf 0))) ∧
    (∀ k e rest, FlushInputsWithPacing env k (e :: rest)
      = (0, k + MAX_RETRY_COUNT,
          List.replicate MAX_RETRY_COUNT (Action.send [e] 0))) ∧
    (∀ layout mode cfg text, cfg.strategy = .Burst → hasPrintable text = true →
      (sendTextToWindowEx env layout text mode cfg).state = RunState.Failed ∧
      (sendTextToWindowEx env layout text mode cfg).charsSent < text.length) ∧
    (∀ layout mode cfg text, cfg.strategy ≠ .Burst →
      (sendTextToWindowEx env layout text mode cfg).state = RunState.Completed) := by
  refine ⟨fun k buf hne => FlushInputs_reject env hrej k buf hne,
    fun k e rest => FlushInputsWithPacing_reject env hrej k e rest,
    fun layout mode cfg text hstrat hpr => ?_, fun layout mode cfg text hstrat => ?_⟩
  · have hF : (sendTextToWindowEx env layout text mode cfg).state = RunState.Failed := by
      rw [sendTextToWindowEx]
      exact sendGo_reject_burst env cfg (resolveAuto mode) layout hrej hab hstrat
        text _ (Or.inr hpr)
    exact ⟨hF, (run_counts env layout text mode cfg).2.1 (by rw [hF]; simp)⟩
  · rw [sendTextToWindowEx]
    exact sendGo_nonburst_completed env cfg (resolveAuto mode) layout hab hstrat text _

/-- Counterexample for C2 as stated: under the default remote pacing
(PerCharacter) an OS that rejects every event does not terminate the run
in Failed — the run completes and returns the full count, not a partial
one. -/
theorem paced_reject_run_completes :
    cfgPerChar0.strategy = PacingStrategy.PerCharacter ∧
    (sendTextToWindowEx envRejectAll layoutNone [97] .Unicode cfgPerChar0).state
        = RunState.Completed ∧
    (sendTextToWindowEx envRejectAll layoutNone [97] .Unicode cfgPerChar0).charsSent
        = 1 :=
  ⟨rfl, by decide, by decide⟩

/-- Witness for C2: the concrete all-rejecting OS makes exactly 3 rejected
attempts per flush; under Burst the one-character run fails with a partial
count, under PerCharacter it completes. -/
theorem flush_retry_bound_witness :
    FlushInputs envRejectAll 0 (AppendCharacterInputs 97)
      = (false, 0 + MAX_RETRY_COUNT,
          List.replicate MAX_RETRY_COUNT (Action.send (AppendCharacterInputs 97) 0)) ∧
    (sendTextToWindowEx envRejectAll layoutNone [97] .Unicode cfgBurst0).state
        = RunState.Failed ∧
    (sendTextToWindowEx envRejectAll layoutNone [97] .Unicode cfgBurst0).charsSent
        < 1 ∧
    (sendTextToWindowEx envRejectAll layoutNone [97] .Unicode cfgPerChar0).state
        = RunState.Completed := by
  have h := flush_retry_bound_semantics envRejectAll (fun _ _ => rfl) (fun _ => rfl)
  exact ⟨h.1 0 (AppendCharacterInputs 97) (by decide),
    (h.2.2.1 layoutNone .Unicode cfgBurst0 [97] rfl (by decide)).1,
    (h.2.2.1 layoutNone .Unicode cfgBurst0 [97] rfl (by decide)).2,
    h.2.2.2 layoutNone .Unicode cfgPerChar0 [97] (by decide)⟩


/-- `exitWith` of a state with a different poll counter is the same
result. -/
theorem exitWith_set_abortChecks (env : Env) (s : LoopState) (n : Nat)
    (st : RunState) :
    exitWith env { s with abortChecks := n } st = exitWith env s st := rfl

/-- A flush site only threads the poll counter through unchanged. -/
theorem flushBoundary_set_abortChecks (env : Env) (cfg : PacingConfig)
    (s : LoopState) (n : Nat) :
    flushBoundary env cfg { s with abortChecks := n }
      = ((flushBoundary env cfg s).1,
         { (flushBoundary env cfg s).2 with abortChecks := n }) := by
  have hsc : ({ s with abortChecks := n } : LoopState).sendCalls = s.sendCalls := rfl
  have hbuf : ({ s with abortChecks := n } : LoopState).buffer = s.buffer := rfl
  unfold flushBoundary
  rw [hsc, hbuf]
  rcases hr : flushRaw env cfg s.sendCalls s.buffer with ⟨ok, k', as⟩
  cases ok <;> rfl

/-- With the abort flag never set, the walk's result does not depend on the
poll counter. -/
theorem sendGo_abortChecks_irrel (env : Env) (cfg : PacingConfig)
    (rmode : InjectionMode) (layout : Layout)
    (hab : ∀ k, env.abortFlag k = false) :
    ∀ (xs : List Nat) (s : LoopState) (n : Nat),
      sendGo env cfg rmode layout { s with abortChecks := n } xs
        = sendGo env cfg rmode layout s xs := by
  intro xs
  induction xs with
  | nil =>
    intro s n
    by_cases hbe : s.buffer.isEmpty
    · have h1 : sendGo env cfg rmode layout { s with abortChecks := n } []
          = exitWith env { s with abortChecks := n } RunState.Completed := by
        simp [sendGo, hbe]
      have h2 : sendGo env cfg rmode layout s []
          = exitWith env s RunState.Completed := by
        simp [sendGo, hbe]
      rw [h1, h2, exitWith_set_abortChecks]
    · rcases hfb : flushBoundary env cfg s with ⟨ok, s1⟩
      have hfb' : flushBoundary env cfg { s with abortChecks := n }
          = (ok, { s1 with abortChecks := n }) := by
        rw [flushBoundary_set_abortChecks, hfb]
      cases ok
      · have h1 : sendGo env cfg rmode layout { s with abortChecks := n } []
            = exitWith env { s1 with abortChecks := n } RunState.Failed := by
          simp [sendGo, hbe, hfb']
        have h2 : sendGo env cfg rmode layout s []
            = exitWith env s1 RunState.Failed := by
          simp [sendGo, hbe, hfb]
        rw [h1, h2, exitWith_set_abortChecks]
      · have h1 : sendGo env cfg rmode layout { s with abortChecks := n } []
            = exitWith env { s1 with abortChecks := n } RunState.Completed := by
          simp [sendGo, hbe, hfb']
        have h2 : sendGo env cfg rmode layout s []
            = exitWith env s1 RunState.Completed := by
          simp [sendGo, hbe, hfb]
        rw [h1, h2, exitWith_set_abortChecks]
  | cons c rest ih =>
    intro s n
    by_cases hbe : s.buffer.isEmpty
    case pos =>
      by_cases hcr : (c == 13 && nextIsLF rest) = true
      · have h1 : sendGo env cfg rmode layout { s with abortChecks := n } (c :: rest)
            = sendGo env cfg rmode layout
                (bumpAbort { s with abortChecks := n }) rest := by
          simp [sendGo, hbe, hab, hcr]
        have h2 : sendGo env cfg rmode layout s (c :: rest)
            = sendGo env cfg rmode layout (bumpAbort s) rest := by
          simp [sendGo, hbe, hab, hcr]
        rw [h1, h2]
        exact (ih (bumpAbort s) (n + 1) : _)
      · by_cases hnl : (c == 10 || c == 13) = true
        · have h1 : sendGo env cfg rmode layout { s with abortChecks := n } (c :: rest)
              = sendGo env cfg rmode layout
                  (enterState env (bumpAbort { s with abortChecks := n })) rest := by
            simp [sendGo, hbe, hab, hcr, hnl]
          have h2 : sendGo env cfg rmode layout s (c :: rest)
              = sendGo env cfg rmode layout (enterState env (bumpAbort s)) rest := by
            simp [sendGo, hbe, hab, hcr, hnl]
          rw [h1, h2]
          exact (ih (enterState env (bumpAbort s)) (n + 1) : _)
        · by_cases hch : (if cfg.strategy = PacingStrategy.Burst then CHUNK_SIZE else 1)
              ≤ s.charsInBuffer + 1
          · rcases hfb : flushBoundary env cfg
                (appendCharState (bumpAbort s) c rmode layout) with ⟨ok, s2⟩
            have hfb' : flushBoundary env cfg
                (appendCharState (bumpAbort { s with abortChecks := n }) c rmode layout)
                  = (ok, { s2 with abortChecks := n + 1 }) := by
              have : appendCharState (bumpAbort { s with abortChecks := n }) c rmode layout
                  = { appendCharState (bumpAbort s) c rmode layout
                      with abortChecks := n + 1 } := rfl
              rw [this, flushBoundary_set_abortChecks, hfb]
            cases ok
            · have h1 : sendGo env cfg rmode layout { s with abortChecks := n } (c :: rest)
                  = exitWith env { s2 with abortChecks := n + 1 } RunState.Failed := by
                simp [sendGo, hbe, hab, hcr, hnl, hch, hfb']
              have h2 : sendGo env cfg rmode layout s (c :: rest)
                  = exitWith env s2 RunState.Failed := by
                simp [sendGo, hbe, hab, hcr, hnl, hch, hfb]
              rw [h1, h2, exitWith_set_abortChecks]
            · have h1 : sendGo env cfg rmode layout { s with abortChecks := n } (c :: rest)
                  = sendGo env cfg rmode layout { s2 with abortChecks := n + 1 } rest := by
                simp [sendGo, hbe, hab, hcr, hnl, hch, hfb']
              have h2 : sendGo env cfg rmode layout s (c :: rest)
                  = sendGo env cfg rmode layout s2 rest := by
                simp [sendGo, hbe, hab, hcr, hnl, hch, hfb]
              rw [h1, h2]
              exact ih s2 (n + 1)
          · have h1 : sendGo env cfg rmode layout { s with abortChecks := n } (c :: rest)
                = sendGo env cfg rmode layout
                    (appendCharState (bumpAbort { s with abortChecks := n })
                      c rmode layout) rest := by
              simp [sendGo, hbe, hab, hcr, hnl, hch]
            have h2 : sendGo env cfg rmode layout s (c :: rest)
                = sendGo env cfg rmode layout
                    (appendCharState (bumpAbort s) c rmode layout) rest := by
              simp [sendGo, hbe, hab, hcr, hnl, hch]
            rw [h1, h2]
            exact (ih (appendCharState (bumpAbort s) c rmode layout) (n + 1) : _)
    case neg =>
      by_cases hcr : (c == 13 && nextIsLF rest) = true
      · have h1 : sendGo env cfg rmode layout { s with abortChecks := n } (c :: rest)
            = sendGo env cfg rmode layout { s with abortChecks := n } rest := by
          simp [sendGo, hbe, hcr]
        have h2 : sendGo env cfg rmode layout s (c :: rest)
            = sendGo env cfg rmode layout s rest := by
          simp [sendGo, hbe, hcr]
        rw [h1, h2]
        exact ih s n
      · by_cases hnl : (c == 10 || c == 13) = true
        · rcases hfb : flushBoundary env cfg s with ⟨ok, s1⟩
          have hfb' : flushBoundary env cfg { s with abortChecks := n }
              = (ok, { s1 with abortChecks := n }) := by
            rw [flushBoundary_set_abortChecks, hfb]
          cases ok
          · have h1 : sendGo env cfg rmode layout { s with abortChecks := n } (c :: rest)
                = exitWith env { s1 with abortChecks := n } RunState.Failed := by
              simp [sendGo, hbe, hcr, hnl, hfb']
            have h2 : sendGo env cfg rmode layout s (c :: rest)
                = exitWith env s1 RunState.Failed := by
              simp [sendGo, hbe, hcr, hnl, hfb]
            rw [h1, h2, exitWith_set_abortChecks]
          · have h1 : sendGo env cfg rmode layout { s with abortChecks := n } (c :: rest)
                = sendGo env cfg rmode layout
                    (enterState env { s1 with abortChecks := n }) rest := by
              simp [sendGo, hbe, hcr, hnl, hfb']
            have h2 : sendGo env cfg rmode layout s (c :: rest)
                = sendGo env cfg rmode layout (enterState env s1) rest := by
              simp [sendGo, hbe, hcr, hnl, hfb]
            rw [h1, h2]
            exact (ih (enterState env s1) n : _)
        · by_cases hch : (if cfg.strategy = PacingStrategy.Burst then CHUNK_SIZE else 1)
              ≤ s.charsInBuffer + 1
          · rcases hfb : flushBoundary env cfg
                (appendCharState s c rmode layout) with ⟨ok, s2⟩
            have hfb' : flushBoundary env cfg
                (appendCharState { s with abortChecks := n } c rmode layout)
                  = (ok, { s2 with abortChecks := n }) := by
              have : appendCharState { s with abortChecks := n } c rmode layout
                  = { appendCharState s c rmode layout with abortChecks := n } := rfl
              rw [this, flushBoundary_set_abortChecks, hfb]
            cases ok
            · have h1 : sendGo env cfg rmode layout { s with abortChecks := n } (c :: rest)
                  = exitWith env { s2 with abortChecks := n } RunState.Failed := by
                simp [sendGo, hbe, hcr, hnl, hch, hfb']
              have h2 : sendGo env cfg rmode layout s (c :: rest)
                  = exitWith env s2 RunState.Failed := by
                simp [sendGo, hbe, hcr, hnl, hch, hfb]
              rw [h1, h2, exitWith_set_abortChecks]
            · have h1 : sendGo env cfg rmode layout { s with abortChecks := n } (c :: rest)
                  = sendGo env cfg rmode layout { s2 with abortChecks := n } rest := by
                simp [sendGo, hbe, hcr, hnl, hch, hfb']
              have h2 : sendGo env cfg rmode layout s (c :: rest)
                  = sendGo env cfg rmode layout s2 rest := by
                simp [sendGo, hbe, hcr, hnl, hch, hfb]
              rw [h1, h2]
              exact ih s2 n
          · have h1 : sendGo env cfg rmode layout { s with abortChecks := n } (c :: rest)
                = sendGo env cfg rmode layout
                    (appendCharState { s with abortChecks := n } c rmode layout) rest := by
              simp [sendGo, hbe, hcr, hnl, hch]
            have h2 : sendGo env cfg rmode layout s (c :: rest)
                = sendGo env cfg rmode layout (appendCharState s c rmode layout) rest := by
              simp [sendGo, hbe, hcr, hnl, hch]
            rw [h1, h2]
            exact (ih (appendCharState s c rmode layout) n : _)


/-- Splicing lemma for CRLF collapse: as long as the text before the line
break does not itself end in `\r` (in which case the `\n` spelling would
not be a line break of its own), writing the break as `"\r\n"` or as
`"\n"` leads the walk to identical results from any state, provided the
abort flag is never set. -/
theorem sendGo_crlf_splice (env : Env) (cfg : PacingConfig) (rmode : InjectionMode)
    (layout : Layout) (hab : ∀ k, env.abortFlag k = false) :
    ∀ (pre : List Nat) (s : LoopState) (post : List Nat), pre.getLast? ≠ some 13 →
      sendGo env cfg rmode layout s (pre ++ 13 :: 10 :: post)
        = sendGo env cfg rmode layout s (pre ++ 10 :: post) := by
  intro pre
  induction pre with
  | nil =>
    intro s post _
    simp only [List.nil_append]
    by_cases hbe : s.buffer.isEmpty
    · have h1 : sendGo env cfg rmode layout s (13 :: 10 :: post)
          = sendGo env cfg rmode layout (bumpAbort s) (10 :: post) := by
        simp [sendGo, hbe, hab, nextIsLF]
      rw [h1]
      exact sendGo_abortChecks_irrel env cfg rmode layout hab (10 :: post) s
        (s.abortChecks + 1)
    · have h1 : sendGo env cfg rmode layout s (13 :: 10 :: post)
          = sendGo env cfg rmode layout s (10 :: post) := by
        simp [sendGo, hbe, nextIsLF]
      exact h1
  | cons c pre' ihp =>
    intro s post hlast
    have hlast' : pre'.getLast? ≠ some 13 := by
      rcases pre' with _ | ⟨d, t⟩
      · simp
      · intro h
        exact hlast (by rw [List.getLast?_cons_cons]; exact h)
    have hcr_eq : (c == 13 && nextIsLF (pre' ++ 13 :: 10 :: post))
        = (c == 13 && nextIsLF (pre' ++ 10 :: post)) := by
      by_cases hc : c = 13
      · subst hc
        rcases pre' with _ | ⟨d, t⟩
        · exact absurd (show ([13] : List Nat).getLast? = some 13 by simp) hlast
        · rfl
      · have hc' : (c == 13) = false := by simpa using hc
        rw [hc']
        simp
    simp only [List.cons_append]
    by_cases hbe : s.buffer.isEmpty
    case pos =>
      by_cases hcr : (c == 13 && nextIsLF (pre' ++ 13 :: 10 :: post)) = true
      · have hcr2 : (c == 13 && nextIsLF (pre' ++ 10 :: post)) = true := by
          rw [← hcr_eq]
          exact hcr
        have h1 : sendGo env cfg rmode layout s (c :: (pre' ++ 13 :: 10 :: post))
            = sendGo env cfg rmode layout (bumpAbort s) (pre' ++ 13 :: 10 :: post) := by
          simp [sendGo, hbe, hab, hcr]
        have h2 : sendGo env cfg rmode layout s (c :: (pre' ++ 10 :: post))
            = sendGo env cfg rmode layout (bumpAbort s) (pre' ++ 10 :: post) := by
          simp [sendGo, hbe, hab, hcr2]
        rw [h1, h2]
        exact ihp (bumpAbort s) post hlast'
      · have hcr2 : ¬(c == 13 && nextIsLF (pre' ++ 10 :: post)) = true := by
          rw [← hcr_eq]
          exact hcr
        by_cases hnl : (c == 10 || c == 13) = true
        · have h1 : sendGo env cfg rmode layout s (c :: (pre' ++ 13 :: 10 :: post))
              = sendGo env cfg rmode layout (enterState env (bumpAbort s))
                  (pre' ++ 13 :: 10 :: post) := by
            simp [sendGo, hbe, hab, hcr, hnl]
          have h2 : sendGo env cfg rmode layout s (c :: (pre' ++ 10 :: post))
              = sendGo env cfg rmode layout (enterState env (bumpAbort s))
                  (pre' ++ 10 :: post) := by
            simp [sendGo, hbe, hab, hcr2, hnl]
          rw [h1, h2]
          exact ihp (enterState env (bumpAbort s)) post hlast'
        · by_cases hch : (if cfg.strategy = PacingStrategy.Burst then CHUNK_SIZE else 1)
              ≤ s.charsInBuffer + 1
          · rcases hfb : flushBoundary env cfg
                (appendCharState (bumpAbort s) c rmode layout) with ⟨ok, s2⟩
            cases ok
            · have h1 : sendGo env cfg rmode layout s (c :: (pre' ++ 13 :: 10 :: post))
                  = exitWith env s2 RunState.Failed := by
                simp [sendGo, hbe, hab, hcr, hnl, hch, hfb]
              have h2 : sendGo env cfg rmode layout s (c :: (pre' ++ 10 :: post))
                  = exitWith env s2 RunState.Failed := by
                simp [sendGo, hbe, hab, hcr2, hnl, hch, hfb]
              rw [h1, h2]
            · have h1 : sendGo env cfg rmode layout s (c :: (pre' ++ 13 :: 10 :: post))
                  = sendGo env cfg rmode layout s2 (pre' ++ 13 :: 10 :: post) := by
                simp [sendGo, hbe, hab, hcr, hnl, hch, hfb]
              have h2 : sendGo env cfg rmode layout s (c :: (pre' ++ 10 :: post))
                  = sendGo env cfg rmode layout s2 (pre' ++ 10 :: post) := by
                simp [sendGo, hbe, hab, hcr2, hnl, hch, hfb]
              rw [h1, h2]
              exact ihp s2 post hlast'
          · have h1 : sendGo env cfg rmode layout s (c :: (pre' ++ 13 :: 10 :: post))
                = sendGo env cfg rmode layout
                    (appendCharState (bumpAbort s) c rmode layout)
                    (pre' ++ 13 :: 10 :: post) := by
              simp [sendGo, hbe, hab, hcr, hnl, hch]
            have h2 : sendGo env cfg rmode layout s (c :: (pre' ++ 10 :: post))
                = sendGo env cfg rmode layout
                    (appendCharState (bumpAbort s) c rmode layout)
                    (pre' ++ 10 :: post) := by
              simp [sendGo, hbe, hab, hcr2, hnl, hch]
            rw [h1, h2]
            exact ihp (appendCharState (bumpAbort s) c rmode layout) post hlast'
    case neg =>
      by_cases hcr : (c == 13 && nextIsLF (pre' ++ 13 :: 10 :: post)) = true
      · have hcr2 : (c == 13 && nextIsLF (pre' ++ 10 :: post)) = true := by
          rw [← hcr_eq]
          exact hcr
        have h1 : sendGo env cfg rmode layout s (c :: (pre' ++ 13 :: 10 :: post))
            = sendGo env cfg rmode layout s (pre' ++ 13 :: 10 :: post) := by
          simp [sendGo, hbe, hcr]
        have h2 : sendGo env cfg rmode layout s (c :: (pre' ++ 10 :: post))
            = sendGo env cfg rmode layout s (pre' ++ 10 :: post) := by
          simp [sendGo, hbe, hcr2]
        rw [h1, h2]
        exact ihp s post hlast'
      · have hcr2 : ¬(c == 13 && nextIsLF (pre' ++ 10 :: post)) = true := by
          rw [← hcr_eq]
          exact hcr
        by_cases hnl : (c == 10 || c == 13) = true
        · rcases hfb : flushBoundary env cfg s with ⟨ok, s1⟩
          cases ok
          · have h1 : sendGo env cfg rmode layout s (c :: (pre' ++ 13 :: 10 :: post))
                = exitWith env s1 RunState.Failed := by
              simp [sendGo, hbe, hcr, hnl, hfb]
            have h2 : sendGo env cfg rmode layout s (c :: (pre' ++ 10 :: post))
                = exitWith env s1 RunState.Failed := by
              simp [sendGo, hbe, hcr2, hnl, hfb]
            rw [h1, h2]
          · have h1 : sendGo env cfg rmode layout s (c :: (pre' ++ 13 :: 10 :: post))
                = sendGo env cfg rmode layout (enterState env s1)
                    (pre' ++ 13 :: 10 :: post) := by
              simp [sendGo, hbe, hcr, hnl, hfb]
            have h2 : sendGo env cfg rmode layout s (c :: (pre' ++ 10 :: post))
                = sendGo env cfg rmode layout (enterState env s1)
                    (pre' ++ 10 :: post) := by
              simp [sendGo, hbe, hcr2, hnl, hfb]
            rw [h1, h2]
            exact ihp (enterState env s1) post hlast'
        · by_cases hch : (if cfg.strategy = PacingStrategy.Burst then CHUNK_SIZE else 1)
              ≤ s.charsInBuffer + 1
          · rcases hfb : flushBoundary env cfg
                (appendCharState s c rmode layout) with ⟨ok, s2⟩
            cases ok
            · have h1 : sendGo env cfg rmode layout s (c :: (pre' ++ 13 :: 10 :: post))
                  = exitWith env s2 RunState.Failed := by
                simp [sendGo, hbe, hcr, hnl, hch, hfb]
              have h2 : sendGo env cfg rmode layout s (c :: (pre' ++ 10 :: post))
                  = exitWith env s2 RunState.Failed := by
                simp [sendGo, hbe, hcr2, hnl, hch, hfb]
              rw [h1, h2]
            · have h1 : sendGo env cfg rmode layout s (c :: (pre' ++ 13 :: 10 :: post))
                  = sendGo env cfg rmode layout s2 (pre' ++ 13 :: 10 :: post) := by
                simp [sendGo, hbe, hcr, hnl, hch, hfb]
              have h2 : sendGo env cfg rmode layout s (c :: (pre' ++ 10 :: post))
                  = sendGo env cfg rmode layout s2 (pre' ++ 10 :: post) := by
                simp [sendGo, hbe, hcr2, hnl, hch, hfb]
              rw [h1, h2]
              exact ihp s2 post hlast'
          · have h1 : sendGo env cfg rmode layout s (c :: (pre' ++ 13 :: 10 :: post))
                = sendGo env cfg rmode layout (appendCharState s c rmode layout)
                    (pre' ++ 13 :: 10 :: post) := by
              simp [sendGo, hbe, hcr, hnl, hch]
            have h2 : sendGo env cfg rmode layout s (c :: (pre' ++ 10 :: post))
                = sendGo env cfg rmode layout (appendCharState s c rmode layout)
                    (pre' ++ 10 :: post) := by
              simp [sendGo, hbe, hcr2, hnl, hch]
            rw [h1, h2]
            exact ihp (appendCharState s c rmode layout) post hlast'

/-- C3: for every pair of texts that differ only in writing a line break
as `"\r\n"` versus `"\n"` (the prefix before the break not itself ending
in `\r`, so that the `\n` spelling really is a line break of its own), the
pipeline produces identical results — the same SendInput calls with the
same events, the same count and the same terminal state — whenever the
abort flag is not set during the run. -/
theorem crlf_collapse_same_events (env : Env) (layout : Layout)
    (mode : InjectionMode) (cfg : PacingConfig) (pre post : List Nat)
    (hab : ∀ k, env.abortFlag k = false) (hpre : pre.getLast? ≠ some 13) :
    sendTextToWindowEx env layout (pre ++ 13 :: 10 :: post) mode cfg
      = sendTextToWindowEx env layout (pre ++ 10 :: post) mode cfg := by
  rw [sendTextToWindowEx, sendTextToWindowEx]
  exact sendGo_crlf_splice env cfg (resolveAuto mode) layout hab pre _ post hpre

/-- Witness for C3: `"a\r\nb"` and `"a\nb"` produce identical runs, and the
run submits exactly one Enter key-down (one Enter pair, not two). -/
theorem crlf_collapse_witness :
    sendTextToWindowEx envAcceptAll layoutNone [97, 13, 10, 98] .Unicode cfgBurst0
      = sendTextToWindowEx envAcceptAll layoutNone [97, 10, 98] .Unicode cfgBurst0 ∧
    countEventOcc
      { wVk := 0, wScan := ENTER_SCANCODE, dwFlags := KEYEVENTF_SCANCODE }
      (sendTextToWindowEx envAcceptAll layoutNone [97, 13, 10, 98]
        .Unicode cfgBurst0).actions = 1 := by
  constructor
  · exact crlf_collapse_same_events envAcceptAll layoutNone .Unicode cfgBurst0
      [97] [98] (fun _ => rfl) (by decide)
  · decide


/-- Every mode the per-character encoder is invoked with during the walk is
either already recorded or the resolved mode the walk was started with. -/
theorem sendGo_modesUsed (env : Env) (cfg : PacingConfig) (rmode : InjectionMode)
    (layout : Layout) :
    ∀ (xs : List Nat) (s : LoopState) (m : InjectionMode),
      m ∈ (sendGo env cfg rmode layout s xs).modesUsed →
      m ∈ s.modesUsed ∨ m = rmode := by
  intro xs
  induction xs with
  | nil =>
    intro s m hm
    by_cases hbe : s.buffer.isEmpty
    · rw [show sendGo env cfg rmode layout s [] = exitWith env s RunState.Completed
          by simp [sendGo, hbe], exitWith_modesUsed] at hm
      exact Or.inl hm
    · rcases hfb : flushBoundary env cfg s with ⟨ok, s2⟩
      have hmu : s2.modesUsed = s.modesUsed := by
        have := (flushBoundary_spec env cfg s).2.1
        rw [hfb] at this
        exact this
      cases ok
      · rw [show sendGo env cfg rmode layout s [] = exitWith env s2 RunState.Failed
            by simp [sendGo, hbe, hfb], exitWith_modesUsed, hmu] at hm
        exact Or.inl hm
      · rw [show sendGo env cfg rmode layout s [] = exitWith env s2 RunState.Completed
            by simp [sendGo, hbe, hfb], exitWith_modesUsed, hmu] at hm
        exact Or.inl hm
  | cons c rest ih =>
    intro s m hm
    by_cases hbe : s.buffer.isEmpty
    case pos =>
      by_cases hab : env.abortFlag s.abortChecks
      · rw [show sendGo env cfg rmode layout s (c :: rest)
            = exitWith env s RunState.Aborted
            by simp [sendGo, hbe, hab, exitWith_bumpAbort],
          exitWith_modesUsed] at hm
        exact Or.inl hm
      · by_cases hcr : (c == 13 && nextIsLF rest) = true
        · rw [show sendGo env cfg rmode layout s (c :: rest)
              = sendGo env cfg rmode layout (bumpAbort s) rest
              by simp [sendGo, hbe, hab, hcr]] at hm
          simpa using ih (bumpAbort s) m hm
        · by_cases hnl : (c == 10 || c == 13) = true
          · rw [show sendGo env cfg rmode layout s (c :: rest)
                = sendGo env cfg rmode layout (enterState env (bumpAbort s)) rest
                by simp [sendGo, hbe, hab, hcr, hnl]] at hm
            simpa using ih (enterState env (bumpAbort s)) m hm
          · by_cases hch : (if cfg.strategy = PacingStrategy.Burst then CHUNK_SIZE else 1)
                ≤ s.charsInBuffer + 1
            · rcases hfb : flushBoundary env cfg
                  (appendCharState (bumpAbort s) c rmode layout) with ⟨ok, s2⟩
              have hmu : s2.modesUsed = s.modesUsed ++ [rmode] := by
                have := (flushBoundary_spec env cfg
                  (appendCharState (bumpAbort s) c rmode layout)).2.1
                rw [hfb] at this
                simpa using this
              cases ok
              · rw [show sendGo env cfg rmode layout s (c :: rest)
                    = exitWith env s2 RunState.Failed
                    by simp [sendGo, hbe, hab, hcr, hnl, hch, hfb],
                  exitWith_modesUsed, hmu] at hm
                rcases List.mem_append.mp hm with h | h
                · exact Or.inl h
                · exact Or.inr (by simpa using h)
              · rw [show sendGo env cfg rmode layout s (c :: rest)
                    = sendGo env cfg rmode layout s2 rest
                    by simp [sendGo, hbe, hab, hcr, hnl, hch, hfb]] at hm
                rcases ih s2 m hm with h | h
                · rw [hmu] at h
                  rcases List.mem_append.mp h with h' | h'
                  · exact Or.inl h'
                  · exact Or.inr (by simpa using h')
                · exact Or.inr h
            · rw [show sendGo env cfg rmode layout s (c :: rest)
                  = sendGo env cfg rmode layout
                      (appendCharState (bumpAbort s) c rmode layout) rest
                  by simp [sendGo, hbe, hab, hcr, hnl, hch]] at hm
              rcases ih (appendCharState (bumpAbort s) c rmode layout) m hm with h | h
              · exact by simpa using h
              · exact Or.inr h
    case neg =>
      by_cases hcr : (c == 13 && nextIsLF rest) = true
      · rw [show sendGo env cfg rmode layout s (c :: rest)
            = sendGo env cfg rmode layout s rest by simp [sendGo, hbe, hcr]] at hm
        exact ih s m hm
      · by_cases hnl : (c == 10 || c == 13) = true
        · rcases hfb : flushBoundary env cfg s with ⟨ok, s1⟩
          have hmu : s1.modesUsed = s.modesUsed := by
            have := (flushBoundary_spec env cfg s).2.1
            rw [hfb] at this
            exact this
          cases ok
          · rw [show sendGo env cfg rmode layout s (c :: rest)
                = exitWith env s1 RunState.Failed by simp [sendGo, hbe, hcr, hnl, hfb],
              exitWith_modesUsed, hmu] at hm
            exact Or.inl hm
          · rw [show sendGo env cfg rmode layout s (c :: rest)
                = sendGo env cfg rmode layout (enterState env s1) rest
                by simp [sendGo, hbe, hcr, hnl, hfb]] at hm
            rcases ih (enterState env s1) m hm with h | h
            · rw [enterState_modesUsed, hmu] at h
              exact Or.inl h
            · exact Or.inr h
        · by_cases hch : (if cfg.strategy = PacingStrategy.Burst then CHUNK_SIZE else 1)
              ≤ s.charsInBuffer + 1
          · rcases hfb : flushBoundary env cfg
                (appendCharState s c rmode layout) with ⟨ok, s2⟩
            have hmu : s2.modesUsed = s.modesUsed ++ [rmode] := by
              have := (flushBoundary_spec env cfg (appendCharState s c rmode layout)).2.1
              rw [hfb] at this
              simpa using this
            cases ok
            · rw [show sendGo env cfg rmode layout s (c :: rest)
                  = exitWith env s2 RunState.Failed
                  by simp [sendGo, hbe, hcr, hnl, hch, hfb],
                exitWith_modesUsed, hmu] at hm
              rcases List.mem_append.mp hm with h | h
              · exact Or.inl h
              · exact Or.inr (by simpa using h)
            · rw [show sendGo env cfg rmode layout s (c :: rest)
                  = sendGo env cfg rmode layout s2 rest
                  by simp [sendGo, hbe, hcr, hnl, hch, hfb]] at hm
              rcases ih s2 m hm with h | h
              · rw [hmu] at h
                rcases List.mem_append.mp h with h' | h'
                · exact Or.inl h'
                · exact Or.inr (by simpa using h')
              · exact Or.inr h
          · rw [show sendGo env cfg rmode layout s (c :: rest)
                = sendGo env cfg rmode layout (appendCharState s c rmode layout) rest
                by simp [sendGo, hbe, hcr, hnl, hch]] at hm
            rcases ih (appendCharState s c rmode layout) m hm with h | h
            · exact by simpa using h
            · exact Or.inr h

/-- Auto is eliminated by the resolution step: the resolved mode is never
Auto. -/
theorem resolveAuto_ne_auto (mode : InjectionMode) : resolveAuto mode ≠ .Auto := by
  cases mode <;> decide

/-- C8: a run requested with mode Auto is identical to the same run
requested with Hybrid (the resolution happens before any character is
encoded), and the per-character encoder is only ever invoked with the
resolved mode, which is never Auto. -/
theorem auto_resolved_to_hybrid (env : Env) (layout : Layout)
    (cfg : PacingConfig) (text : List Nat) :
    sendTextToWindowEx env layout text .Auto cfg
      = sendTextToWindowEx env layout text .Hybrid cfg ∧
    (∀ mode, resolveAuto mode ≠ .Auto) ∧
    (∀ mode m, m ∈ (sendTextToWindowEx env layout text mode cfg).modesUsed →
      m = resolveAuto mode ∧ m ≠ InjectionMode.Auto) := by
  refine ⟨rfl, fun mode => resolveAuto_ne_auto mode, fun mode m hm => ?_⟩
  rw [sendTextToWindowEx] at hm
  rcases sendGo_modesUsed env cfg (resolveAuto mode) layout text _ m hm with h | h
  · simp [initState] at h
  · exact ⟨h, h ▸ resolveAuto_ne_auto mode⟩

/-- Witness for C8: the Auto run equals the Hybrid run and never invokes
the encoder with Auto. -/
theorem auto_resolved_witness :
    sendTextToWindowEx envAcceptAll layoutNone [97] .Auto cfgBurst0
      = sendTextToWindowEx envAcceptAll layoutNone [97] .Hybrid cfgBurst0 ∧
    InjectionMode.Auto ∉
      (sendTextToWindowEx envAcceptAll layoutNone [97] .Auto cfgBurst0).modesUsed := by
  have h := auto_resolved_to_hybrid envAcceptAll layoutNone cfgBurst0 [97]
  exact ⟨h.1, fun hm => (h.2.2 .Auto .Auto hm).2 rfl⟩

/-- C10: on the empty input the pipeline returns 0 in the Completed state
without emitting any character events, and still performs the full
resource bracketing: the abort hook is installed at entry and removed
before return, and the modifiers are reset at start and at end — the
complete action log is exactly these four actions, for every OS
environment, layout, mode and pacing configuration. -/
theorem empty_text_full_bracketing (env : Env) (layout : Layout)
    (mode : InjectionMode) (cfg : PacingConfig) :
    sendTextToWindowEx env layout [] mode cfg
      = { charsSent := 0, state := RunState.Completed,
          actions := [Action.hookInstall,
            Action.send resetModifierEvents
              (min (env.sendAccept 0 resetModifierEvents.length)
                resetModifierEvents.length),
            Action.send resetModifierEvents
              (min (env.sendAccept 1 resetModifierEvents.length)
                resetModifierEvents.length),
            Action.hookRemove],
          modesUsed := [] } := rfl

end MadPaster
